import Mathlib

/-!
# nrf_802154 debug log: ring writer and trace-word encoder

Shallow embedding of `drivers/nrf_radio_802154/src/nrf_802154_debug_log.h`.

* Machine integers are natural numbers; every `uint32_t` operation of the header is
  reduced modulo `2 ^ 32` explicitly, the `uint16_t` cast modulo `2 ^ 16`.
* The two globals `nrf_802154_debug_log_buffer` and `nrf_802154_debug_log_ptr` form the
  explicit state `LogState`.
* A store through an index outside the declared array is undefined in C; the embedding
  returns `none` there.
* The verbosity gate is an untyped macro: its operands carry their C type (`int` or
  `unsigned int`) and are compared under the usual arithmetic conversions.
* The build-time macros are the fields of `Config`.  The constants of
  `nrf_802154_debug_log_codes.h` and `NRF_802154_MODULE_ID` are not part of the header and
  are configuration parameters as well.
* Preemption is a machine that executes the body of `nrf_802154_debug_log_write_raw` one
  statement at a time, on a stack of contexts nested by priority.  The critical-section
  primitives of `nrf_802154_utils.h` are not part of the header and are modelled.
-/

namespace DebugLog

/-! ## Machine arithmetic -/

/-- Conversion to `uint32_t`. -/
def u32 (x : Nat) : Nat := x % 2 ^ 32

/-- Conversion to `uint16_t`. -/
def u16 (x : Nat) : Nat := x % 2 ^ 16

/-- Unsigned 32-bit addition. -/
def add32 (a b : Nat) : Nat := (a + b) % 2 ^ 32

/-- Unsigned 32-bit subtraction (wraps below zero). -/
def sub32 (a b : Nat) : Nat := (a % 2 ^ 32 + 2 ^ 32 - b % 2 ^ 32) % 2 ^ 32

/-- Unsigned 32-bit left shift. -/
def shl32 (a k : Nat) : Nat := (a <<< k) % 2 ^ 32

/-! ## Operands of C comparisons -/

/-- An integer operand of a C expression after integer promotion: a value of type `int` or
a value of type `unsigned int`, both 32 bits wide. -/
inductive CInt where
  | int (v : Int)
  | unsigned (v : Nat)
  deriving DecidableEq, Repr

/-- The number an operand stands for. -/
def CInt.value : CInt → Int
  | CInt.int v => v
  | CInt.unsigned v => v

/-- The operand is a value of its type: `INT_MIN .. INT_MAX` for `int`, `0 .. UINT_MAX` for
`unsigned int`. -/
def CInt.in_range : CInt → Bool
  | CInt.int v => decide (-2 ^ 31 ≤ v) && decide (v < 2 ^ 31)
  | CInt.unsigned v => decide (v < 2 ^ 32)

/-- Conversion to `unsigned int`: the value modulo `2 ^ 32`. -/
def CInt.to_unsigned : CInt → Nat
  | CInt.int v => (v % 2 ^ 32).toNat
  | CInt.unsigned v => v % 2 ^ 32

/-- C `a > b` under the usual arithmetic conversions: two `int` operands are compared as
they are, otherwise both are converted to `unsigned int`. -/
def c_gt (a b : CInt) : Bool :=
  match a, b with
  | CInt.int x, CInt.int y => decide (x > y)
  | _, _ => decide (a.to_unsigned > b.to_unsigned)

/-- C `a <= b` under the usual arithmetic conversions. -/
def c_le (a b : CInt) : Bool :=
  match a, b with
  | CInt.int x, CInt.int y => decide (x ≤ y)
  | _, _ => decide (a.to_unsigned ≤ b.to_unsigned)

/-! ## Build-time configuration -/

/-- The macros the header is compiled against. -/
structure Config where
  /-- Value of `NRF_802154_DEBUG_LOG_BUFFER_LEN` (default `1024U`), an `unsigned`
  constant: theorems that depend on its value take it below `2 ^ 32`. -/
  NRF_802154_DEBUG_LOG_BUFFER_LEN : Nat
  /-- Value of `NRF_802154_DEBUG_LOG_BLOCKS_INTERRUPTS` (default `0`). -/
  NRF_802154_DEBUG_LOG_BLOCKS_INTERRUPTS : Bool
  /-- Value of `NRF_802154_LOG_VERBOSITY` (default `NRF_802154_LOG_VERBOSITY_LOW`), with
  its C type. -/
  NRF_802154_LOG_VERBOSITY : CInt
  /-- Whether `CU_TEST` is defined. -/
  CU_TEST : Bool
  /-- Truth value of `ENABLE_DEBUG_LOG`. -/
  ENABLE_DEBUG_LOG : Bool
  /-- Value of `NRF_802154_MODULE_ID` of the including C file. -/
  NRF_802154_MODULE_ID : Nat
  /-- Value of `NRF_802154_LOG_TYPE_FUNCTION_ENTER`. -/
  NRF_802154_LOG_TYPE_FUNCTION_ENTER : Nat
  /-- Value of `NRF_802154_LOG_TYPE_FUNCTION_EXIT`. -/
  NRF_802154_LOG_TYPE_FUNCTION_EXIT : Nat
  /-- Value of `NRF_802154_LOG_TYPE_LOCAL_EVENT`. -/
  NRF_802154_LOG_TYPE_LOCAL_EVENT : Nat
  /-- Value of `NRF_802154_LOG_TYPE_GLOBAL_EVENT`. -/
  NRF_802154_LOG_TYPE_GLOBAL_EVENT : Nat
  deriving DecidableEq, Repr

def NRF_802154_LOG_VERBOSITY_NONE : CInt := CInt.int 0
def NRF_802154_LOG_VERBOSITY_LOW : CInt := CInt.int 1
def NRF_802154_LOG_VERBOSITY_HIGH : CInt := CInt.int 2

/-- Bit shift of field "log type" in log word. -/
def NRF_802154_DEBUG_LOG_TYPE_BITPOS : Nat := 28

/-- Bit shift of field "module id" in log word. -/
def NRF_802154_DEBUG_LOG_MODULE_ID_BITPOS : Nat := 22

/-- Bit shift of field "event id" in log word. -/
def NRF_802154_DEBUG_LOG_EVENT_ID_BITPOS : Nat := 16

/-- The condition `!defined(CU_TEST) && (ENABLE_DEBUG_LOG)` selecting the real
`nrf_802154_debug_log_write_raw`. -/
def debug_log_compiled_in (cfg : Config) : Bool :=
  !cfg.CU_TEST && cfg.ENABLE_DEBUG_LOG

/-! ## State -/

/-- The two globals of the log: `nrf_802154_debug_log_buffer` and
`nrf_802154_debug_log_ptr`. -/
structure LogState where
  nrf_802154_debug_log_buffer : List Nat
  nrf_802154_debug_log_ptr : Nat
  deriving DecidableEq, Repr

/-- State at startup: the globals are zero-initialised. -/
def initial_state (cfg : Config) : LogState :=
  { nrf_802154_debug_log_buffer := List.replicate cfg.NRF_802154_DEBUG_LOG_BUFFER_LEN 0
    nrf_802154_debug_log_ptr := 0 }

/-! ## Ring writer -/

/-- The cursor update of `nrf_802154_debug_log_write_raw`:
`(ptr + 1U) & (NRF_802154_DEBUG_LOG_BUFFER_LEN - 1U)`. -/
def next_ptr (cfg : Config) (ptr : Nat) : Nat :=
  add32 ptr 1 &&& sub32 cfg.NRF_802154_DEBUG_LOG_BUFFER_LEN 1

/-- Macro `nrf_802154_debug_log_write_raw(value)`, executed without preemption.
When the log is compiled out the macro body is empty.  The macros
`nrf_802154_debug_log_disable_interrupts` and `nrf_802154_debug_log_restore_interrupts`
around the body touch neither global, so an unpreempted execution is the same under both
settings of `NRF_802154_DEBUG_LOG_BLOCKS_INTERRUPTS`. -/
def nrf_802154_debug_log_write_raw (cfg : Config) (s : LogState) (value : Nat) :
    Option LogState :=
  if debug_log_compiled_in cfg then
    let nrf_802154_debug_log_write_raw_value := u32 value
    let nrf_802154_debug_log_write_raw_ptr := s.nrf_802154_debug_log_ptr
    if nrf_802154_debug_log_write_raw_ptr < cfg.NRF_802154_DEBUG_LOG_BUFFER_LEN then
      let buffer := s.nrf_802154_debug_log_buffer.set nrf_802154_debug_log_write_raw_ptr
        nrf_802154_debug_log_write_raw_value
      let nrf_802154_debug_log_write_raw_ptr := next_ptr cfg nrf_802154_debug_log_write_raw_ptr
      some { nrf_802154_debug_log_buffer := buffer
             nrf_802154_debug_log_ptr := nrf_802154_debug_log_write_raw_ptr }
    else
      none
  else
    some s

/-- Sequential execution of `nrf_802154_debug_log_write_raw` on each word of a list, in
order. -/
def write_all (cfg : Config) : LogState → List Nat → Option LogState
  | s, [] => some s
  | s, w :: ws =>
    match nrf_802154_debug_log_write_raw cfg s w with
    | some s' => write_all cfg s' ws
    | none => none

/-! ## Verbosity gate -/

/-- Macro `nrf_802154_debug_log_verbosity_allows(verbosity)`:
`(((verbosity) > 0) && ((verbosity) <= NRF_802154_LOG_VERBOSITY))`. The macro is untyped,
so each comparison is made in the common type of its operands; the literal `0` is an
`int`. -/
def nrf_802154_debug_log_verbosity_allows (cfg : Config) (verbosity : CInt) : Bool :=
  c_gt verbosity (CInt.int 0) && c_le verbosity cfg.NRF_802154_LOG_VERBOSITY

/-! ## Encoder -/

/-- Argument of `nrf_802154_debug_log_write_raw` in `nrf_802154_log_function_enter`;
`func` is the value of `(uintptr_t)(__func__)`. -/
def function_enter_word (cfg : Config) (func : Nat) : Nat :=
  shl32 cfg.NRF_802154_LOG_TYPE_FUNCTION_ENTER NRF_802154_DEBUG_LOG_TYPE_BITPOS |||
  shl32 cfg.NRF_802154_MODULE_ID NRF_802154_DEBUG_LOG_MODULE_ID_BITPOS |||
  shl32 (u32 func) 0

/-- Argument of `nrf_802154_debug_log_write_raw` in `nrf_802154_log_function_exit`. -/
def function_exit_word (cfg : Config) (func : Nat) : Nat :=
  shl32 cfg.NRF_802154_LOG_TYPE_FUNCTION_EXIT NRF_802154_DEBUG_LOG_TYPE_BITPOS |||
  shl32 cfg.NRF_802154_MODULE_ID NRF_802154_DEBUG_LOG_MODULE_ID_BITPOS |||
  shl32 (u32 func) 0

/-- Argument of `nrf_802154_debug_log_write_raw` in `nrf_802154_log_local_event`. -/
def local_event_word (cfg : Config) (local_event_id param_u16 : Nat) : Nat :=
  shl32 cfg.NRF_802154_LOG_TYPE_LOCAL_EVENT NRF_802154_DEBUG_LOG_TYPE_BITPOS |||
  shl32 cfg.NRF_802154_MODULE_ID NRF_802154_DEBUG_LOG_MODULE_ID_BITPOS |||
  shl32 local_event_id NRF_802154_DEBUG_LOG_EVENT_ID_BITPOS |||
  shl32 (u16 param_u16) 0

/-- Argument of `nrf_802154_debug_log_write_raw` in `nrf_802154_log_global_event`. -/
def global_event_word (cfg : Config) (global_event_id param_u16 : Nat) : Nat :=
  shl32 cfg.NRF_802154_LOG_TYPE_GLOBAL_EVENT NRF_802154_DEBUG_LOG_TYPE_BITPOS |||
  shl32 cfg.NRF_802154_MODULE_ID NRF_802154_DEBUG_LOG_MODULE_ID_BITPOS |||
  shl32 global_event_id NRF_802154_DEBUG_LOG_EVENT_ID_BITPOS |||
  shl32 (u16 param_u16) 0

/-- Macro `nrf_802154_log_function_enter(verbosity)`. -/
def nrf_802154_log_function_enter (cfg : Config) (s : LogState) (verbosity : CInt)
    (func : Nat) : Option LogState :=
  if nrf_802154_debug_log_verbosity_allows cfg verbosity then
    nrf_802154_debug_log_write_raw cfg s (function_enter_word cfg func)
  else
    some s

/-- Macro `nrf_802154_log_function_exit(verbosity)`. -/
def nrf_802154_log_function_exit (cfg : Config) (s : LogState) (verbosity : CInt)
    (func : Nat) : Option LogState :=
  if nrf_802154_debug_log_verbosity_allows cfg verbosity then
    nrf_802154_debug_log_write_raw cfg s (function_exit_word cfg func)
  else
    some s

/-- Macro `nrf_802154_log_local_event(verbosity, local_event_id, param_u16)`. -/
def nrf_802154_log_local_event (cfg : Config) (s : LogState) (verbosity : CInt)
    (local_event_id param_u16 : Nat) : Option LogState :=
  if nrf_802154_debug_log_verbosity_allows cfg verbosity then
    nrf_802154_debug_log_write_raw cfg s (local_event_word cfg local_event_id param_u16)
  else
    some s

/-- Macro `nrf_802154_log_global_event(verbosity, global_event_id, param_u16)`. -/
def nrf_802154_log_global_event (cfg : Config) (s : LogState) (verbosity : CInt)
    (global_event_id param_u16 : Nat) : Option LogState :=
  if nrf_802154_debug_log_verbosity_allows cfg verbosity then
    nrf_802154_debug_log_write_raw cfg s (global_event_word cfg global_event_id param_u16)
  else
    some s

/-! ## Decoding by the documented bit positions -/

/-- Bits 28-31 of a log word. -/
def type_field (w : Nat) : Nat := (w >>> NRF_802154_DEBUG_LOG_TYPE_BITPOS) &&& 0xF

/-- Bits 22-27 of a log word. -/
def module_field (w : Nat) : Nat := (w >>> NRF_802154_DEBUG_LOG_MODULE_ID_BITPOS) &&& 0x3F

/-- Bits 16-21 of a log word. -/
def event_field (w : Nat) : Nat := (w >>> NRF_802154_DEBUG_LOG_EVENT_ID_BITPOS) &&& 0x3F

/-- Bits 0-15 of a log word. -/
def payload_field (w : Nat) : Nat := w &&& 0xFFFF

/-- Bits 0-21 of a log word. -/
def function_field (w : Nat) : Nat := w &&& 0x3FFFFF

/-- A configuration with the log compiled in, capacity `n`, low verbosity, module id 3 and
type constants 1, 2, 3, 4. -/
def sample_config (n : Nat) : Config :=
  { NRF_802154_DEBUG_LOG_BUFFER_LEN := n
    NRF_802154_DEBUG_LOG_BLOCKS_INTERRUPTS := false
    NRF_802154_LOG_VERBOSITY := NRF_802154_LOG_VERBOSITY_LOW
    CU_TEST := false
    ENABLE_DEBUG_LOG := true
    NRF_802154_MODULE_ID := 3
    NRF_802154_LOG_TYPE_FUNCTION_ENTER := 1
    NRF_802154_LOG_TYPE_FUNCTION_EXIT := 2
    NRF_802154_LOG_TYPE_LOCAL_EVENT := 3
    NRF_802154_LOG_TYPE_GLOBAL_EVENT := 4 }

/-- A capacity-8 buffer holding `0x10 .. 0x17` in slots 0 to 7, with the cursor at `p`. -/
def sample_state (p : Nat) : LogState :=
  { nrf_802154_debug_log_buffer := [0x10, 0x11, 0x12, 0x13, 0x14, 0x15, 0x16, 0x17]
    nrf_802154_debug_log_ptr := p }

/-- The ring-writer invariant: the cursor indexes a slot of the buffer, and the buffer has
the declared capacity. -/
def cursor_in_bounds (cfg : Config) (s : LogState) : Prop :=
  s.nrf_802154_debug_log_ptr < cfg.NRF_802154_DEBUG_LOG_BUFFER_LEN ∧
  s.nrf_802154_debug_log_buffer.length = cfg.NRF_802154_DEBUG_LOG_BUFFER_LEN

/-- The sample configuration with `ENABLE_DEBUG_LOG` off. -/
def sample_config_log_off (n : Nat) : Config :=
  { sample_config n with ENABLE_DEBUG_LOG := false }

/-- The sample configuration with the verbosity threshold `t`. -/
def sample_config_threshold (n : Nat) (t : CInt) : Config :=
  { sample_config n with NRF_802154_LOG_VERBOSITY := t }

/-- The sample configuration compiled for a module whose id is `m`. -/
def sample_config_module (n m : Nat) : Config :=
  { sample_config n with NRF_802154_MODULE_ID := m }

/-! ## Preemption

`nrf_802154_debug_log_write_raw` is a sequence of seven statements.  Contexts are nested by
priority: a context that requests an append while another append is in progress runs on top
of it, and the interrupted append continues when the contexts above it have finished. -/

/-- Modelled from the spec: `nrf_802154_mcu_critical_enter` of `nrf_802154_utils.h`, which
is not in the header; entering the critical section saves the interrupt state and masks
interrupts. The result is the saved state and the new interrupt state. -/
def nrf_802154_mcu_critical_enter (interrupts_enabled : Bool) : Bool × Bool :=
  (interrupts_enabled, false)

/-- Modelled from the spec: `nrf_802154_mcu_critical_exit` of `nrf_802154_utils.h`, which
is not in the header; leaving the critical section restores the saved interrupt state. -/
def nrf_802154_mcu_critical_exit (saved : Bool) : Bool :=
  saved

/-- Macro `nrf_802154_debug_log_disable_interrupts(var_name)`: the critical-section entry
when `NRF_802154_DEBUG_LOG_BLOCKS_INTERRUPTS` is set, an empty statement otherwise. The
result is the saved-state variable and the interrupt state. -/
def nrf_802154_debug_log_disable_interrupts (cfg : Config) (interrupts_enabled sv : Bool) :
    Bool × Bool :=
  if cfg.NRF_802154_DEBUG_LOG_BLOCKS_INTERRUPTS then
    nrf_802154_mcu_critical_enter interrupts_enabled
  else
    (sv, interrupts_enabled)

/-- Macro `nrf_802154_debug_log_restore_interrupts(var_name)`: the critical-section exit
when `NRF_802154_DEBUG_LOG_BLOCKS_INTERRUPTS` is set, an empty statement otherwise. The
result is the interrupt state. -/
def nrf_802154_debug_log_restore_interrupts (cfg : Config) (interrupts_enabled sv : Bool) :
    Bool :=
  if cfg.NRF_802154_DEBUG_LOG_BLOCKS_INTERRUPTS then
    nrf_802154_mcu_critical_exit sv
  else
    interrupts_enabled

/-- An execution of the body of `nrf_802154_debug_log_write_raw` in progress: the macro
argument, the three locals of the body and the index of the next statement. -/
structure Frame where
  arg : Nat
  nrf_802154_debug_log_write_raw_value : Nat
  nrf_802154_debug_log_write_raw_sv : Bool
  nrf_802154_debug_log_write_raw_ptr : Nat
  pc : Nat
  deriving DecidableEq, Repr

/-- The core: the two globals, the interrupt state, the appends in progress (the running
one first, each one interrupted by the one before it) and the words of the append requests
that arrived while interrupts were masked. -/
structure Machine where
  log : LogState
  interrupts_enabled : Bool
  stack : List Frame
  pending : List Nat
  deriving DecidableEq, Repr

/-- What happens next on the core: a context of higher priority than the running one
requests `nrf_802154_debug_log_write_raw(value)`, or the running context executes its next
statement. -/
inductive Action where
  | start (value : Nat)
  | step
  deriving DecidableEq, Repr

/-- A context about to execute the first statement of the body. -/
def new_frame (value : Nat) : Frame :=
  { arg := value
    nrf_802154_debug_log_write_raw_value := 0
    nrf_802154_debug_log_write_raw_sv := false
    nrf_802154_debug_log_write_raw_ptr := 0
    pc := 0 }

/-- No append in progress, interrupts enabled. -/
def idle (s : LogState) : Machine :=
  { log := s, interrupts_enabled := true, stack := [], pending := [] }

/-- Modelled from the spec: interrupt delivery, a property of the core and not of the
header. Requests that arrived while interrupts were masked are taken, in order of arrival,
as soon as interrupts are enabled again. -/
def take_pending (m : Machine) : Machine :=
  if m.interrupts_enabled then
    { m with stack := m.pending.map new_frame ++ m.stack, pending := [] }
  else
    m

/-- The statement at `fr.pc` of the body of `nrf_802154_debug_log_write_raw`, executed by
the running context `fr`; `rest` are the interrupted contexts. The statements are, in
order: 0 the initialisation of `nrf_802154_debug_log_write_raw_value`, 1
`nrf_802154_debug_log_disable_interrupts`, 2 the read of `nrf_802154_debug_log_ptr` into
`nrf_802154_debug_log_write_raw_ptr`, 3 the store of the value into the buffer, 4 the
advance of `nrf_802154_debug_log_write_raw_ptr`, 5 the store of it into
`nrf_802154_debug_log_ptr`, 6 `nrf_802154_debug_log_restore_interrupts`, after which the
context is gone. Statements 2 to 5 are steps 2 to 5 of the append. -/
def exec_statement (cfg : Config) (m : Machine) (fr : Frame) (rest : List Frame) :
    Option Machine :=
  match fr.pc with
  | 0 =>
    some { m with
      stack := { fr with nrf_802154_debug_log_write_raw_value := u32 fr.arg, pc := 1 } :: rest }
  | 1 =>
    let r := nrf_802154_debug_log_disable_interrupts cfg m.interrupts_enabled
      fr.nrf_802154_debug_log_write_raw_sv
    some { m with
      interrupts_enabled := r.2
      stack := { fr with nrf_802154_debug_log_write_raw_sv := r.1, pc := 2 } :: rest }
  | 2 =>
    some { m with
      stack := { fr with
        nrf_802154_debug_log_write_raw_ptr := m.log.nrf_802154_debug_log_ptr, pc := 3 } :: rest }
  | 3 =>
    if fr.nrf_802154_debug_log_write_raw_ptr < cfg.NRF_802154_DEBUG_LOG_BUFFER_LEN then
      some { m with
        log := { m.log with
          nrf_802154_debug_log_buffer :=
            m.log.nrf_802154_debug_log_buffer.set fr.nrf_802154_debug_log_write_raw_ptr
              fr.nrf_802154_debug_log_write_raw_value }
        stack := { fr with pc := 4 } :: rest }
    else
      none
  | 4 =>
    some { m with
      stack := { fr with
        nrf_802154_debug_log_write_raw_ptr :=
          next_ptr cfg fr.nrf_802154_debug_log_write_raw_ptr, pc := 5 } :: rest }
  | 5 =>
    some { m with
      log := { m.log with nrf_802154_debug_log_ptr := fr.nrf_802154_debug_log_write_raw_ptr }
      stack := { fr with pc := 6 } :: rest }
  | _ =>
    some (take_pending { m with
      interrupts_enabled := nrf_802154_debug_log_restore_interrupts cfg m.interrupts_enabled
        fr.nrf_802154_debug_log_write_raw_sv
      stack := rest })

/-- One action on the core. With the log compiled out the macro body is empty, so a request
starts nothing. A request made while interrupts are masked stays pending. -/
def apply_action (cfg : Config) (m : Machine) : Action → Option Machine
  | Action.start value =>
    if debug_log_compiled_in cfg then
      if m.interrupts_enabled then
        some { m with stack := new_frame value :: m.stack }
      else
        some { m with pending := m.pending ++ [value] }
    else
      some m
  | Action.step =>
    match m.stack with
    | [] => some m
    | fr :: rest => exec_statement cfg m fr rest

/-- A sequence of actions on the core. -/
def run (cfg : Config) : Machine → List Action → Option Machine
  | m, [] => some m
  | m, a :: as =>
    match apply_action cfg m a with
    | some m' => run cfg m' as
    | none => none

/-- The words whose append is requested in a sequence of actions, in order of request. -/
def started : List Action → List Nat
  | [] => []
  | Action.start value :: as => value :: started as
  | Action.step :: as => started as

/-- A lower-priority append of `w1` that executes its first `k` statements, is then
interrupted by a complete append of `w2`, and executes its remaining statements. -/
def nested_append (w1 w2 k : Nat) : List Action :=
  [Action.start w1] ++ List.replicate k Action.step ++ [Action.start w2] ++
    List.replicate 7 Action.step ++ List.replicate (7 - k) Action.step

/-- The sample configuration with `NRF_802154_DEBUG_LOG_BLOCKS_INTERRUPTS` set. -/
def sample_config_masked (n : Nat) : Config :=
  { sample_config n with NRF_802154_DEBUG_LOG_BLOCKS_INTERRUPTS := true }

/-- A context that has not yet executed the statement that disables interrupts. -/
def frame_outside (fr : Frame) : Prop :=
  fr.pc = 0 ∨ (fr.pc = 1 ∧ fr.nrf_802154_debug_log_write_raw_value = u32 fr.arg)

/-- The state of the log while the running context `fr` is between the statement that
disables interrupts and the end of the body, when `L` is the state left by the appends
`done` and `todo` are the words of the other contexts that have not stored yet. -/
def frame_inside (cfg : Config) (L : LogState) (log : LogState) (fr : Frame)
    (done todo req : List Nat) : Prop :=
  (fr.pc = 2 ∧ log = L ∧ List.Perm (done ++ (fr.arg :: todo)) req) ∨
  (fr.pc = 3 ∧ log = L ∧
    fr.nrf_802154_debug_log_write_raw_ptr = L.nrf_802154_debug_log_ptr ∧
    List.Perm (done ++ (fr.arg :: todo)) req) ∨
  (fr.pc = 4 ∧
    log = { nrf_802154_debug_log_buffer :=
              L.nrf_802154_debug_log_buffer.set L.nrf_802154_debug_log_ptr (u32 fr.arg)
            nrf_802154_debug_log_ptr := L.nrf_802154_debug_log_ptr } ∧
    fr.nrf_802154_debug_log_write_raw_ptr = L.nrf_802154_debug_log_ptr ∧
    List.Perm (done ++ (fr.arg :: todo)) req) ∨
  (fr.pc = 5 ∧
    log = { nrf_802154_debug_log_buffer :=
              L.nrf_802154_debug_log_buffer.set L.nrf_802154_debug_log_ptr (u32 fr.arg)
            nrf_802154_debug_log_ptr := L.nrf_802154_debug_log_ptr } ∧
    fr.nrf_802154_debug_log_write_raw_ptr = next_ptr cfg L.nrf_802154_debug_log_ptr ∧
    List.Perm (done ++ (fr.arg :: todo)) req) ∨
  (fr.pc = 6 ∧ log = L ∧ List.Perm (done ++ todo) req)

/-- The invariant of the core under the masking policy, for the requests `req` made since
the state `s0`: some of them, `done`, have been appended one after the other, and the
others are waiting, either in contexts that have not disabled interrupts yet, or pending,
or in the one context that is inside its critical section. -/
def serialised (cfg : Config) (s0 : LogState) (m : Machine) (req : List Nat) : Prop :=
  ∃ done L, write_all cfg s0 done = some L ∧ cursor_in_bounds cfg L ∧
    ((m.log = L ∧ m.interrupts_enabled = true ∧ m.pending = [] ∧
        (∀ f ∈ m.stack, frame_outside f) ∧
        List.Perm (done ++ m.stack.map Frame.arg) req) ∨
      (∃ fr rest, m.stack = fr :: rest ∧ (∀ f ∈ rest, frame_outside f) ∧
        m.interrupts_enabled = false ∧
        fr.nrf_802154_debug_log_write_raw_sv = true ∧
        fr.nrf_802154_debug_log_write_raw_value = u32 fr.arg ∧
        frame_inside cfg L m.log fr done (rest.map Frame.arg ++ m.pending) req))

/-! ## Arithmetic of the cursor update -/

theorem add32_one_of_lt {p : Nat} (h : p + 1 < 2 ^ 32) : add32 p 1 = p + 1 := by
  unfold add32
  exact Nat.mod_eq_of_lt h

theorem sub32_one_of_pos {n : Nat} (h0 : 0 < n) (h32 : n < 2 ^ 32) : sub32 n 1 = n - 1 := by
  unfold sub32
  omega

theorem sub32_one_le {n : Nat} (h0 : 0 < n) : sub32 n 1 ≤ n - 1 := by
  unfold sub32
  omega

/-- The machine formula is the mask formula on natural numbers. -/
theorem next_ptr_eq_mask (cfg : Config) (p : Nat)
    (h32 : cfg.NRF_802154_DEBUG_LOG_BUFFER_LEN < 2 ^ 32)
    (hp : p < cfg.NRF_802154_DEBUG_LOG_BUFFER_LEN) :
    next_ptr cfg p = (p + 1) &&& (cfg.NRF_802154_DEBUG_LOG_BUFFER_LEN - 1) := by
  unfold next_ptr
  rw [add32_one_of_lt (by omega), sub32_one_of_pos (by omega) h32]

/-- For a power-of-two capacity the cursor update is the successor modulo the capacity. -/
theorem next_ptr_eq_mod (cfg : Config) (k p : Nat)
    (hN : cfg.NRF_802154_DEBUG_LOG_BUFFER_LEN = 2 ^ k)
    (h32 : cfg.NRF_802154_DEBUG_LOG_BUFFER_LEN < 2 ^ 32)
    (hp : p < cfg.NRF_802154_DEBUG_LOG_BUFFER_LEN) :
    next_ptr cfg p = (p + 1) % cfg.NRF_802154_DEBUG_LOG_BUFFER_LEN := by
  rw [next_ptr_eq_mask cfg p h32 hp, hN, Nat.and_pow_two_sub_one_eq_mod]

/-- Whatever the capacity, the updated cursor is below it. -/
theorem next_ptr_lt (cfg : Config) (p : Nat)
    (h0 : 0 < cfg.NRF_802154_DEBUG_LOG_BUFFER_LEN) :
    next_ptr cfg p < cfg.NRF_802154_DEBUG_LOG_BUFFER_LEN := by
  unfold next_ptr
  have h1 : add32 p 1 &&& sub32 cfg.NRF_802154_DEBUG_LOG_BUFFER_LEN 1
      ≤ sub32 cfg.NRF_802154_DEBUG_LOG_BUFFER_LEN 1 := Nat.and_le_right
  have h2 := sub32_one_le h0
  omega

theorem u32_of_lt {w : Nat} (h : w < 2 ^ 32) : u32 w = w := by
  unfold u32
  exact Nat.mod_eq_of_lt h

/-! ## One append -/

/-- With the log compiled in and the cursor in bounds, the append is the store followed by
the cursor update. -/
theorem write_raw_eq (cfg : Config) (s : LogState) (w : Nat)
    (hen : debug_log_compiled_in cfg = true)
    (hp : s.nrf_802154_debug_log_ptr < cfg.NRF_802154_DEBUG_LOG_BUFFER_LEN) :
    nrf_802154_debug_log_write_raw cfg s w =
      some { nrf_802154_debug_log_buffer :=
               s.nrf_802154_debug_log_buffer.set s.nrf_802154_debug_log_ptr (u32 w)
             nrf_802154_debug_log_ptr := next_ptr cfg s.nrf_802154_debug_log_ptr } := by
  simp [nrf_802154_debug_log_write_raw, hen, hp]

theorem write_raw_disabled (cfg : Config) (s : LogState) (w : Nat)
    (hen : debug_log_compiled_in cfg = false) :
    nrf_802154_debug_log_write_raw cfg s w = some s := by
  simp [nrf_802154_debug_log_write_raw, hen]

theorem write_all_append (cfg : Config) (s : LogState) (ws : List Nat) (w : Nat) :
    write_all cfg s (ws ++ [w]) =
      (write_all cfg s ws).bind (fun s' => nrf_802154_debug_log_write_raw cfg s' w) := by
  induction ws generalizing s with
  | nil =>
    simp only [List.nil_append, write_all, Option.some_bind]
    cases nrf_802154_debug_log_write_raw cfg s w <;> rfl
  | cons a ws ih =>
    simp only [List.cons_append, write_all]
    cases nrf_802154_debug_log_write_raw cfg s a with
    | none => rfl
    | some s' => exact ih s'

/-! ## Runs of appends -/

theorem mod_ne_of_lt_of_lt {n j m : Nat} (hjm : j < m) (hm : m < j + n) :
    j % n ≠ m % n := by
  intro h
  have hdvd : n ∣ m - j := (Nat.modEq_iff_dvd' (Nat.le_of_lt hjm)).mp h
  have hle : n ≤ m - j := Nat.le_of_dvd (by omega) hdvd
  omega

/-- Closed form of the state after appending `ws` to the initial state, for a
power-of-two capacity: the cursor is the number of appends modulo the capacity, each of the
last `capacity` words sits in the slot of its index modulo the capacity, and the slots past
the number of appends are still zero. -/
theorem write_all_initial (cfg : Config) (k : Nat)
    (hen : debug_log_compiled_in cfg = true)
    (hN : cfg.NRF_802154_DEBUG_LOG_BUFFER_LEN = 2 ^ k)
    (h32 : cfg.NRF_802154_DEBUG_LOG_BUFFER_LEN < 2 ^ 32) (ws : List Nat) :
    ∃ s, write_all cfg (initial_state cfg) ws = some s ∧
      s.nrf_802154_debug_log_buffer.length = cfg.NRF_802154_DEBUG_LOG_BUFFER_LEN ∧
      s.nrf_802154_debug_log_ptr = ws.length % cfg.NRF_802154_DEBUG_LOG_BUFFER_LEN ∧
      (∀ j w, ws[j]? = some w → ws.length ≤ j + cfg.NRF_802154_DEBUG_LOG_BUFFER_LEN →
        s.nrf_802154_debug_log_buffer[j % cfg.NRF_802154_DEBUG_LOG_BUFFER_LEN]? =
          some (u32 w)) ∧
      (∀ i, ws.length ≤ i → i < cfg.NRF_802154_DEBUG_LOG_BUFFER_LEN →
        s.nrf_802154_debug_log_buffer[i]? = some 0) := by
  have hpos : 0 < cfg.NRF_802154_DEBUG_LOG_BUFFER_LEN := by
    rw [hN]; exact Nat.pos_pow_of_pos k (by decide)
  induction ws using List.reverseRecOn with
  | nil =>
    refine ⟨initial_state cfg, rfl, ?_, ?_, ?_, ?_⟩
    · simp [initial_state]
    · simp [initial_state]
    · intro j w hj
      simp at hj
    · intro i _ hi
      simp [initial_state, hi]
  | append_singleton ws w ih =>
    obtain ⟨s, hrun, hlen, hptr, hnew, hzero⟩ := ih
    have hp : s.nrf_802154_debug_log_ptr < cfg.NRF_802154_DEBUG_LOG_BUFFER_LEN := by
      rw [hptr]; exact Nat.mod_lt _ hpos
    refine ⟨{ nrf_802154_debug_log_buffer :=
                s.nrf_802154_debug_log_buffer.set s.nrf_802154_debug_log_ptr (u32 w)
              nrf_802154_debug_log_ptr := next_ptr cfg s.nrf_802154_debug_log_ptr },
      ?_, ?_, ?_, ?_, ?_⟩
    · rw [write_all_append, hrun, Option.some_bind, write_raw_eq cfg s w hen hp]
    · simp [hlen]
    · simp only [List.length_append, List.length_singleton]
      rw [next_ptr_eq_mod cfg k _ hN h32 hp, hptr, Nat.mod_add_mod]
    · intro j v hj hwin
      simp only [List.length_append, List.length_singleton] at hwin
      rcases Nat.lt_or_ge j ws.length with hlt | hge
      · rw [List.getElem?_append_left hlt] at hj
        have hne : ws.length % cfg.NRF_802154_DEBUG_LOG_BUFFER_LEN ≠
            j % cfg.NRF_802154_DEBUG_LOG_BUFFER_LEN :=
          fun h => mod_ne_of_lt_of_lt hlt (by omega) h.symm
        simp only [hptr]
        rw [List.getElem?_set_ne hne]
        exact hnew j v hj (by omega)
      · have hjlen : j < (ws ++ [w]).length := by
          by_contra hcon
          rw [List.getElem?_eq_none (by omega)] at hj
          cases hj
        simp only [List.length_append, List.length_singleton] at hjlen
        have hjeq : j = ws.length := by omega
        subst hjeq
        simp at hj
        subst hj
        simp only [hptr]
        rw [List.getElem?_set_self]
        simp [hlen, Nat.mod_lt _ hpos]
    · intro i hi hiN
      simp only [List.length_append, List.length_singleton] at hi
      have hne : s.nrf_802154_debug_log_ptr ≠ i := by
        rw [hptr, Nat.mod_eq_of_lt (by omega)]
        omega
      rw [List.getElem?_set_ne hne]
      exact hzero i (by omega) hiN

theorem write_raw_preserves_bounds (cfg : Config) (s : LogState) (w : Nat)
    (h0 : 0 < cfg.NRF_802154_DEBUG_LOG_BUFFER_LEN) (hinv : cursor_in_bounds cfg s) :
    ∃ s', nrf_802154_debug_log_write_raw cfg s w = some s' ∧ cursor_in_bounds cfg s' := by
  cases hen : debug_log_compiled_in cfg with
  | false => exact ⟨s, write_raw_disabled cfg s w hen, hinv⟩
  | true =>
    refine ⟨_, write_raw_eq cfg s w hen hinv.1, ?_, ?_⟩
    · exact next_ptr_lt cfg _ h0
    · simpa using hinv.2

theorem write_all_preserves_bounds (cfg : Config) (ws : List Nat)
    (h0 : 0 < cfg.NRF_802154_DEBUG_LOG_BUFFER_LEN) :
    ∀ s, cursor_in_bounds cfg s →
      ∃ s', write_all cfg s ws = some s' ∧ cursor_in_bounds cfg s' := by
  induction ws with
  | nil => exact fun s hinv => ⟨s, rfl, hinv⟩
  | cons w ws ih =>
    intro s hinv
    obtain ⟨s1, h1, hinv1⟩ := write_raw_preserves_bounds cfg s w h0 hinv
    obtain ⟨s2, h2, hinv2⟩ := ih s1 hinv1
    exact ⟨s2, by simp [write_all, h1, h2], hinv2⟩

theorem initial_state_in_bounds (cfg : Config)
    (h0 : 0 < cfg.NRF_802154_DEBUG_LOG_BUFFER_LEN) :
    cursor_in_bounds cfg (initial_state cfg) := by
  simp [cursor_in_bounds, initial_state, h0]

theorem iterate_next_ptr (cfg : Config) (k : Nat)
    (hN : cfg.NRF_802154_DEBUG_LOG_BUFFER_LEN = 2 ^ k)
    (h32 : cfg.NRF_802154_DEBUG_LOG_BUFFER_LEN < 2 ^ 32) (M : Nat) :
    (next_ptr cfg)^[M] 0 = M % cfg.NRF_802154_DEBUG_LOG_BUFFER_LEN := by
  have hpos : 0 < cfg.NRF_802154_DEBUG_LOG_BUFFER_LEN := by
    rw [hN]; exact Nat.pos_pow_of_pos k (by decide)
  induction M with
  | zero => simp
  | succ M ih =>
    rw [Function.iterate_succ_apply', ih,
      next_ptr_eq_mod cfg k _ hN h32 (Nat.mod_lt _ hpos), Nat.mod_add_mod]

/-- Slot `j mod N` after a run holds word `j` itself when the words are 32-bit. -/
theorem write_all_initial_slot (cfg : Config) (k : Nat)
    (hen : debug_log_compiled_in cfg = true)
    (hN : cfg.NRF_802154_DEBUG_LOG_BUFFER_LEN = 2 ^ k)
    (h32 : cfg.NRF_802154_DEBUG_LOG_BUFFER_LEN < 2 ^ 32) (ws : List Nat)
    (hws : ∀ w ∈ ws, w < 2 ^ 32) :
    ∃ s, write_all cfg (initial_state cfg) ws = some s ∧
      s.nrf_802154_debug_log_buffer.length = cfg.NRF_802154_DEBUG_LOG_BUFFER_LEN ∧
      s.nrf_802154_debug_log_ptr = ws.length % cfg.NRF_802154_DEBUG_LOG_BUFFER_LEN ∧
      (∀ j, j < ws.length → ws.length ≤ j + cfg.NRF_802154_DEBUG_LOG_BUFFER_LEN →
        s.nrf_802154_debug_log_buffer[j % cfg.NRF_802154_DEBUG_LOG_BUFFER_LEN]? = ws[j]?) ∧
      (∀ i, ws.length ≤ i → i < cfg.NRF_802154_DEBUG_LOG_BUFFER_LEN →
        s.nrf_802154_debug_log_buffer[i]? = some 0) := by
  obtain ⟨s, hrun, hlen, hptr, hnew, hzero⟩ := write_all_initial cfg k hen hN h32 ws
  refine ⟨s, hrun, hlen, hptr, ?_, hzero⟩
  intro j hj hwin
  have hget : ws[j]? = some ws[j] := List.getElem?_eq_getElem hj
  rw [hnew j ws[j] hget hwin, hget, u32_of_lt (hws _ (List.getElem_mem hj))]

/-- Every residue below `n` is the residue of an index in any window of `n` consecutive
indices. -/
theorem exists_index_in_window {n : Nat} (m i : Nat) (hi : i < n) :
    ∃ j, m ≤ j ∧ j < n + m ∧ j % n = i := by
  have hdm : n * (m / n) + m % n = m := Nat.div_add_mod m n
  have hr : m % n < n := Nat.mod_lt _ (by omega)
  rcases Nat.lt_or_ge i (m % n) with hlt | hge
  · refine ⟨n * (m / n + 1) + i, ?_, ?_, ?_⟩
    · rw [Nat.mul_add, Nat.mul_one]; omega
    · rw [Nat.mul_add, Nat.mul_one]; omega
    · rw [Nat.mul_add_mod]; exact Nat.mod_eq_of_lt hi
  · refine ⟨n * (m / n) + i, ?_, ?_, ?_⟩
    · omega
    · omega
    · rw [Nat.mul_add_mod]; exact Nat.mod_eq_of_lt hi

/-! ## Bit fields -/

theorem or_mod_two_pow (a b k : Nat) : (a ||| b) % 2 ^ k = a % 2 ^ k ||| b % 2 ^ k := by
  apply Nat.eq_of_testBit_eq
  intro i
  simp only [Nat.testBit_mod_two_pow, Nat.testBit_or]
  cases decide (i < k) <;> simp

theorem or_shiftRight (a b k : Nat) : (a ||| b) >>> k = a >>> k ||| b >>> k := by
  apply Nat.eq_of_testBit_eq
  intro i
  simp only [Nat.testBit_shiftRight, Nat.testBit_or]

theorem type_field_eq (w : Nat) : type_field w = w / 2 ^ 28 % 2 ^ 4 := by
  unfold type_field NRF_802154_DEBUG_LOG_TYPE_BITPOS
  rw [Nat.shiftRight_eq_div_pow, ← Nat.and_pow_two_sub_one_eq_mod]

theorem module_field_eq (w : Nat) : module_field w = w / 2 ^ 22 % 2 ^ 6 := by
  unfold module_field NRF_802154_DEBUG_LOG_MODULE_ID_BITPOS
  rw [Nat.shiftRight_eq_div_pow, ← Nat.and_pow_two_sub_one_eq_mod]

theorem event_field_eq (w : Nat) : event_field w = w / 2 ^ 16 % 2 ^ 6 := by
  unfold event_field NRF_802154_DEBUG_LOG_EVENT_ID_BITPOS
  rw [Nat.shiftRight_eq_div_pow, ← Nat.and_pow_two_sub_one_eq_mod]

theorem payload_field_eq (w : Nat) : payload_field w = w % 2 ^ 16 := by
  unfold payload_field
  rw [← Nat.and_pow_two_sub_one_eq_mod]

theorem function_field_eq (w : Nat) : function_field w = w % 2 ^ 22 := by
  unfold function_field
  rw [← Nat.and_pow_two_sub_one_eq_mod]

theorem type_field_or (a b : Nat) : type_field (a ||| b) = type_field a ||| type_field b := by
  simp only [type_field_eq, ← Nat.shiftRight_eq_div_pow, or_shiftRight, or_mod_two_pow]

theorem module_field_or (a b : Nat) :
    module_field (a ||| b) = module_field a ||| module_field b := by
  simp only [module_field_eq, ← Nat.shiftRight_eq_div_pow, or_shiftRight, or_mod_two_pow]

theorem payload_field_or (a b : Nat) :
    payload_field (a ||| b) = payload_field a ||| payload_field b := by
  simp only [payload_field_eq, or_mod_two_pow]

theorem function_field_or (a b : Nat) :
    function_field (a ||| b) = function_field a ||| function_field b := by
  simp only [function_field_eq, or_mod_two_pow]

/-- With every field in range the four-field word is the sum of the shifted fields. -/
theorem pack_event (T m e v : Nat) (hT : T ≤ 15) (hm : m ≤ 63) (he : e ≤ 63)
    (hv : v ≤ 65535) :
    shl32 T NRF_802154_DEBUG_LOG_TYPE_BITPOS |||
      shl32 m NRF_802154_DEBUG_LOG_MODULE_ID_BITPOS |||
      shl32 e NRF_802154_DEBUG_LOG_EVENT_ID_BITPOS ||| shl32 (u16 v) 0
      = T * 2 ^ 28 + m * 2 ^ 22 + e * 2 ^ 16 + v := by
  unfold shl32 u16 NRF_802154_DEBUG_LOG_TYPE_BITPOS NRF_802154_DEBUG_LOG_MODULE_ID_BITPOS
    NRF_802154_DEBUG_LOG_EVENT_ID_BITPOS
  have h1 : (T <<< 28) % 2 ^ 32 = 2 ^ 28 * T := by
    simp only [Nat.shiftLeft_eq]; omega
  have h2 : (m <<< 22) % 2 ^ 32 = m * 2 ^ 22 := by
    simp only [Nat.shiftLeft_eq]; omega
  have h3 : (e <<< 16) % 2 ^ 32 = e * 2 ^ 16 := by
    simp only [Nat.shiftLeft_eq]; omega
  have h4 : ((v % 2 ^ 16) <<< 0) % 2 ^ 32 = v := by
    simp only [Nat.shiftLeft_eq]; omega
  have e1 : 2 ^ 28 * T ||| m * 2 ^ 22 = 2 ^ 22 * (64 * T + m) := by
    rw [← Nat.mul_add_lt_is_or (by omega) T]; omega
  have e2 : 2 ^ 22 * (64 * T + m) ||| e * 2 ^ 16 = 2 ^ 16 * (4096 * T + 64 * m + e) := by
    rw [← Nat.mul_add_lt_is_or (by omega) _]; omega
  have e3 : 2 ^ 16 * (4096 * T + 64 * m + e) ||| v
      = T * 2 ^ 28 + m * 2 ^ 22 + e * 2 ^ 16 + v := by
    rw [← Nat.mul_add_lt_is_or (by omega) _]; omega
  rw [h1, h2, h3, h4, e1, e2, e3]

/-- Decoding of a word that is the sum of in-range shifted fields. -/
theorem unpack_event (T m e v w : Nat) (hT : T ≤ 15) (hm : m ≤ 63) (he : e ≤ 63)
    (hv : v ≤ 65535) (hw : w = T * 2 ^ 28 + m * 2 ^ 22 + e * 2 ^ 16 + v) :
    type_field w = T ∧ module_field w = m ∧ event_field w = e ∧ payload_field w = v ∧
      u32 w = w := by
  rw [type_field_eq, module_field_eq, event_field_eq, payload_field_eq]
  unfold u32
  subst hw
  refine ⟨?_, ?_, ?_, ?_, ?_⟩ <;> omega

theorem shl32_u32_zero (f : Nat) : shl32 (u32 f) 0 = f % 2 ^ 32 := by
  unfold shl32 u32
  simp only [Nat.shiftLeft_eq]
  omega

theorem shl32_u16_zero (v : Nat) : shl32 (u16 v) 0 = v % 2 ^ 16 := by
  unfold shl32 u16
  simp only [Nat.shiftLeft_eq]
  omega

theorem type_field_shl32_type (T : Nat) (hT : T ≤ 15) :
    type_field (shl32 T NRF_802154_DEBUG_LOG_TYPE_BITPOS) = T := by
  rw [type_field_eq]
  unfold shl32 NRF_802154_DEBUG_LOG_TYPE_BITPOS
  simp only [Nat.shiftLeft_eq]
  omega

theorem type_field_shl32_module (m : Nat) (hm : m ≤ 63) :
    type_field (shl32 m NRF_802154_DEBUG_LOG_MODULE_ID_BITPOS) = 0 := by
  rw [type_field_eq]
  unfold shl32 NRF_802154_DEBUG_LOG_MODULE_ID_BITPOS
  simp only [Nat.shiftLeft_eq]
  omega

theorem module_field_shl32_type (T : Nat) :
    module_field (shl32 T NRF_802154_DEBUG_LOG_TYPE_BITPOS) = 0 := by
  rw [module_field_eq]
  unfold shl32 NRF_802154_DEBUG_LOG_TYPE_BITPOS
  simp only [Nat.shiftLeft_eq]
  omega

theorem module_field_shl32_module (m : Nat) (hm : m ≤ 63) :
    module_field (shl32 m NRF_802154_DEBUG_LOG_MODULE_ID_BITPOS) = m := by
  rw [module_field_eq]
  unfold shl32 NRF_802154_DEBUG_LOG_MODULE_ID_BITPOS
  simp only [Nat.shiftLeft_eq]
  omega

theorem function_field_shl32_type (T : Nat) :
    function_field (shl32 T NRF_802154_DEBUG_LOG_TYPE_BITPOS) = 0 := by
  rw [function_field_eq]
  unfold shl32 NRF_802154_DEBUG_LOG_TYPE_BITPOS
  simp only [Nat.shiftLeft_eq]
  omega

theorem function_field_shl32_module (m : Nat) :
    function_field (shl32 m NRF_802154_DEBUG_LOG_MODULE_ID_BITPOS) = 0 := by
  rw [function_field_eq]
  unfold shl32 NRF_802154_DEBUG_LOG_MODULE_ID_BITPOS
  simp only [Nat.shiftLeft_eq]
  omega

/-- The three fields of a function-entry or function-exit word with type constant `T` and
module id `m`. -/
theorem function_word_fields (T m f : Nat) (hT : T ≤ 15) (hm : m ≤ 63) (hf : f < 2 ^ 32) :
    let w := shl32 T NRF_802154_DEBUG_LOG_TYPE_BITPOS |||
      shl32 m NRF_802154_DEBUG_LOG_MODULE_ID_BITPOS ||| shl32 (u32 f) 0
    function_field w = f % 2 ^ 22 ∧ type_field w = T ||| type_field f ∧
      module_field w = m ||| module_field f := by
  intro w
  have hf0 : shl32 (u32 f) 0 = f := by
    rw [shl32_u32_zero]; exact Nat.mod_eq_of_lt hf
  refine ⟨?_, ?_, ?_⟩
  · simp only [w, function_field_or, function_field_shl32_type, function_field_shl32_module,
      hf0, Nat.zero_or]
    exact function_field_eq f
  · simp only [w, type_field_or, type_field_shl32_type T hT, type_field_shl32_module m hm,
      hf0, Nat.or_zero]
  · simp only [w, module_field_or, module_field_shl32_type, module_field_shl32_module m hm,
      hf0, Nat.zero_or]

/-- The payload of an event word enters only through its low 16 bits. -/
theorem event_word_payload (a v v' : Nat) (ha : a % 2 ^ 16 = 0) :
    (a ||| shl32 (u16 v) 0) = (a ||| shl32 (u16 (v % 65536)) 0) ∧
      (a ||| shl32 (u16 v) 0) >>> 16 = (a ||| shl32 (u16 v') 0) >>> 16 ∧
      payload_field (a ||| shl32 (u16 v) 0) = v % 65536 := by
  have hs : ∀ x, shl32 (u16 x) 0 >>> 16 = 0 := by
    intro x
    rw [shl32_u16_zero, Nat.shiftRight_eq_div_pow]
    omega
  refine ⟨?_, ?_, ?_⟩
  · rw [shl32_u16_zero, shl32_u16_zero]
    congr 1
    omega
  · rw [or_shiftRight, or_shiftRight, hs, hs]
  · rw [payload_field_eq, or_mod_two_pow, ha, shl32_u16_zero, Nat.zero_or]
    omega

theorem event_word_high_part (T m e : Nat) :
    (shl32 T NRF_802154_DEBUG_LOG_TYPE_BITPOS |||
      shl32 m NRF_802154_DEBUG_LOG_MODULE_ID_BITPOS |||
      shl32 e NRF_802154_DEBUG_LOG_EVENT_ID_BITPOS) % 2 ^ 16 = 0 := by
  rw [or_mod_two_pow, or_mod_two_pow]
  unfold shl32 NRF_802154_DEBUG_LOG_TYPE_BITPOS NRF_802154_DEBUG_LOG_MODULE_ID_BITPOS
    NRF_802154_DEBUG_LOG_EVENT_ID_BITPOS
  simp only [Nat.shiftLeft_eq]
  have h1 : T * 2 ^ 28 % 2 ^ 32 % 2 ^ 16 = 0 := by omega
  have h2 : m * 2 ^ 22 % 2 ^ 32 % 2 ^ 16 = 0 := by omega
  have h3 : e * 2 ^ 16 % 2 ^ 32 % 2 ^ 16 = 0 := by omega
  rw [h1, h2, h3]
  rfl

/-! ## Claims on the ring writer -/

/-- C1: for a power-of-two capacity, a state whose cursor `p` is below the capacity and a
32-bit word `w`, one append with the log compiled in stores `w` in slot `p` and moves
the cursor to `(p + 1) & (N - 1)`, which is `p + 1` below the last slot and `0` at the last
slot. -/
theorem write_raw_stores_and_advances (cfg : Config) (k : Nat) (s : LogState) (w : Nat)
    (hen : debug_log_compiled_in cfg = true)
    (hN : cfg.NRF_802154_DEBUG_LOG_BUFFER_LEN = 2 ^ k)
    (h32 : cfg.NRF_802154_DEBUG_LOG_BUFFER_LEN < 2 ^ 32)
    (hlen : s.nrf_802154_debug_log_buffer.length = cfg.NRF_802154_DEBUG_LOG_BUFFER_LEN)
    (hp : s.nrf_802154_debug_log_ptr < cfg.NRF_802154_DEBUG_LOG_BUFFER_LEN)
    (hw : w < 2 ^ 32) :
    ∃ s', nrf_802154_debug_log_write_raw cfg s w = some s' ∧
      s'.nrf_802154_debug_log_buffer[s.nrf_802154_debug_log_ptr]? = some w ∧
      s'.nrf_802154_debug_log_ptr =
        (s.nrf_802154_debug_log_ptr + 1) &&& (cfg.NRF_802154_DEBUG_LOG_BUFFER_LEN - 1) ∧
      (s.nrf_802154_debug_log_ptr < cfg.NRF_802154_DEBUG_LOG_BUFFER_LEN - 1 →
        s'.nrf_802154_debug_log_ptr = s.nrf_802154_debug_log_ptr + 1) ∧
      (s.nrf_802154_debug_log_ptr = cfg.NRF_802154_DEBUG_LOG_BUFFER_LEN - 1 →
        s'.nrf_802154_debug_log_ptr = 0) := by
  refine ⟨_, write_raw_eq cfg s w hen hp, ?_, ?_, ?_, ?_⟩
  · simp only
    rw [List.getElem?_set_self (by omega), u32_of_lt hw]
  · exact next_ptr_eq_mask cfg _ h32 hp
  · intro hlt
    simp only
    rw [next_ptr_eq_mod cfg k _ hN h32 hp]
    exact Nat.mod_eq_of_lt (by omega)
  · intro heq
    simp only
    rw [next_ptr_eq_mod cfg k _ hN h32 hp, heq, Nat.sub_add_cancel (by omega)]
    exact Nat.mod_self _

/-- Instance of C1 at capacity 8 with the cursor on the last slot: the word goes to
slot 7 and the cursor wraps to 0. -/
theorem write_raw_stores_and_advances_witness :
    ∃ s', nrf_802154_debug_log_write_raw (sample_config 8) (sample_state 7) 0x18 = some s' ∧
      s'.nrf_802154_debug_log_buffer[7]? = some 0x18 ∧
      s'.nrf_802154_debug_log_ptr = (7 + 1) &&& (8 - 1) ∧
      (7 < 8 - 1 → s'.nrf_802154_debug_log_ptr = 7 + 1) ∧
      (7 = 8 - 1 → s'.nrf_802154_debug_log_ptr = 0) :=
  write_raw_stores_and_advances (sample_config 8) 3 (sample_state 7) 0x18
    (by decide) (by decide) (by decide) (by decide) (by decide) (by decide)

/-- C3, as stated, fails: with capacity 2 and k = 2, after the 2 + 2 appends of
1, 2, 3, 4 the cursor is 0, not k = 2. -/
theorem cursor_after_overflow_counterexample :
    Option.map LogState.nrf_802154_debug_log_ptr
        (write_all (sample_config 2) (initial_state (sample_config 2)) [1, 2, 3, 4]) = some 0 ∧
      ¬ Option.map LogState.nrf_802154_debug_log_ptr
        (write_all (sample_config 2) (initial_state (sample_config 2)) [1, 2, 3, 4]) = some 2 := by
  decide

/-- C3, amended: for a power-of-two capacity N and k ≥ 1, appending N + k 32-bit words to the
initial buffer leaves exactly the most recent N words (slot `j mod N` holds word `j` for
k ≤ j < N + k, and every slot is such a slot), and the cursor equals `k mod N`, which is
`k` when k < N. -/
theorem write_all_overwrites_oldest (cfg : Config) (k n : Nat) (ws : List Nat)
    (hen : debug_log_compiled_in cfg = true)
    (hN : cfg.NRF_802154_DEBUG_LOG_BUFFER_LEN = 2 ^ k)
    (h32 : cfg.NRF_802154_DEBUG_LOG_BUFFER_LEN < 2 ^ 32)
    (_hn : 1 ≤ n)
    (hlen : ws.length = cfg.NRF_802154_DEBUG_LOG_BUFFER_LEN + n)
    (hws : ∀ w ∈ ws, w < 2 ^ 32) :
    ∃ s, write_all cfg (initial_state cfg) ws = some s ∧
      s.nrf_802154_debug_log_buffer.length = cfg.NRF_802154_DEBUG_LOG_BUFFER_LEN ∧
      (∀ j, n ≤ j → j < cfg.NRF_802154_DEBUG_LOG_BUFFER_LEN + n →
        s.nrf_802154_debug_log_buffer[j % cfg.NRF_802154_DEBUG_LOG_BUFFER_LEN]? = ws[j]?) ∧
      (∀ i, i < cfg.NRF_802154_DEBUG_LOG_BUFFER_LEN →
        ∃ j, n ≤ j ∧ j < cfg.NRF_802154_DEBUG_LOG_BUFFER_LEN + n ∧
          j % cfg.NRF_802154_DEBUG_LOG_BUFFER_LEN = i ∧
          s.nrf_802154_debug_log_buffer[i]? = ws[j]?) ∧
      s.nrf_802154_debug_log_ptr = n % cfg.NRF_802154_DEBUG_LOG_BUFFER_LEN ∧
      (n < cfg.NRF_802154_DEBUG_LOG_BUFFER_LEN → s.nrf_802154_debug_log_ptr = n) := by
  obtain ⟨s, hrun, hblen, hptr, hnew, _⟩ := write_all_initial_slot cfg k hen hN h32 ws hws
  have hwin : ∀ j, n ≤ j → j < cfg.NRF_802154_DEBUG_LOG_BUFFER_LEN + n →
      s.nrf_802154_debug_log_buffer[j % cfg.NRF_802154_DEBUG_LOG_BUFFER_LEN]? = ws[j]? :=
    fun j h1 h2 => hnew j (by omega) (by omega)
  have hcur : s.nrf_802154_debug_log_ptr = n % cfg.NRF_802154_DEBUG_LOG_BUFFER_LEN := by
    rw [hptr, hlen, Nat.add_mod_left]
  refine ⟨s, hrun, hblen, hwin, ?_, hcur, ?_⟩
  · intro i hi
    obtain ⟨j, h1, h2, h3⟩ := exists_index_in_window n i hi
    refine ⟨j, h1, h2, h3, ?_⟩
    rw [← h3]
    exact hwin j h1 h2
  · intro hlt
    rw [hcur, Nat.mod_eq_of_lt hlt]

/-- Instance of amended C3: capacity 2, k = 1, words 1, 2, 3. -/
theorem write_all_overwrites_oldest_witness :
    ∃ s, write_all (sample_config 2) (initial_state (sample_config 2)) [1, 2, 3] = some s ∧
      s.nrf_802154_debug_log_buffer.length = 2 ∧
      (∀ j, 1 ≤ j → j < 2 + 1 →
        s.nrf_802154_debug_log_buffer[j % 2]? = [1, 2, 3][j]?) ∧
      (∀ i, i < 2 →
        ∃ j, 1 ≤ j ∧ j < 2 + 1 ∧ j % 2 = i ∧
          s.nrf_802154_debug_log_buffer[i]? = [1, 2, 3][j]?) ∧
      s.nrf_802154_debug_log_ptr = 1 % 2 ∧
      (1 < 2 → s.nrf_802154_debug_log_ptr = 1) :=
  write_all_overwrites_oldest (sample_config 2) 1 1 [1, 2, 3]
    (by decide) (by decide) (by decide) (by decide) (by decide) (by decide)

/-- C4: for a power-of-two capacity N and n ≤ N 32-bit words appended to the initial buffer,
slots 0 .. n-1 hold the appended words in append order, the slots from n on still hold 0,
and the cursor is `n mod N`. -/
theorem write_all_prefix_in_order (cfg : Config) (k : Nat) (ws : List Nat)
    (hen : debug_log_compiled_in cfg = true)
    (hN : cfg.NRF_802154_DEBUG_LOG_BUFFER_LEN = 2 ^ k)
    (h32 : cfg.NRF_802154_DEBUG_LOG_BUFFER_LEN < 2 ^ 32)
    (hlen : ws.length ≤ cfg.NRF_802154_DEBUG_LOG_BUFFER_LEN)
    (hws : ∀ w ∈ ws, w < 2 ^ 32) :
    ∃ s, write_all cfg (initial_state cfg) ws = some s ∧
      s.nrf_802154_debug_log_ptr = ws.length % cfg.NRF_802154_DEBUG_LOG_BUFFER_LEN ∧
      s.nrf_802154_debug_log_buffer.take ws.length = ws ∧
      (∀ i, ws.length ≤ i → i < cfg.NRF_802154_DEBUG_LOG_BUFFER_LEN →
        s.nrf_802154_debug_log_buffer[i]? = some 0) ∧
      s.nrf_802154_debug_log_buffer =
        ws ++ List.replicate (cfg.NRF_802154_DEBUG_LOG_BUFFER_LEN - ws.length) 0 := by
  obtain ⟨s, hrun, hblen, hptr, hnew, hzero⟩ := write_all_initial_slot cfg k hen hN h32 ws hws
  have hslot : ∀ j, j < ws.length → s.nrf_802154_debug_log_buffer[j]? = ws[j]? := by
    intro j hj
    have h := hnew j hj (by omega)
    rwa [Nat.mod_eq_of_lt (by omega)] at h
  have hall : s.nrf_802154_debug_log_buffer =
      ws ++ List.replicate (cfg.NRF_802154_DEBUG_LOG_BUFFER_LEN - ws.length) 0 := by
    apply List.ext_getElem?
    intro i
    rcases Nat.lt_or_ge i ws.length with hlt | hge
    · rw [List.getElem?_append_left hlt]
      exact hslot i hlt
    · rw [List.getElem?_append_right hge]
      rcases Nat.lt_or_ge i cfg.NRF_802154_DEBUG_LOG_BUFFER_LEN with hiN | hiN
      · rw [hzero i hge hiN, List.getElem?_replicate]
        simp [show i - ws.length < cfg.NRF_802154_DEBUG_LOG_BUFFER_LEN - ws.length by omega]
      · rw [List.getElem?_eq_none (by omega), List.getElem?_eq_none (by simp; omega)]
  refine ⟨s, hrun, hptr, ?_, hzero, hall⟩
  rw [hall, List.take_left']
  rfl

/-- Instance of C4: the 5 words `0x10 .. 0x14` appended to an empty capacity-8 buffer. -/
theorem write_all_prefix_in_order_witness :
    ∃ s, write_all (sample_config 8) (initial_state (sample_config 8))
        [0x10, 0x11, 0x12, 0x13, 0x14] = some s ∧
      s.nrf_802154_debug_log_ptr = 5 % 8 ∧
      s.nrf_802154_debug_log_buffer.take 5 = [0x10, 0x11, 0x12, 0x13, 0x14] ∧
      (∀ i, 5 ≤ i → i < 8 → s.nrf_802154_debug_log_buffer[i]? = some 0) ∧
      s.nrf_802154_debug_log_buffer =
        [0x10, 0x11, 0x12, 0x13, 0x14] ++ List.replicate (8 - 5) 0 :=
  write_all_prefix_in_order (sample_config 8) 3 [0x10, 0x11, 0x12, 0x13, 0x14]
    (by decide) (by decide) (by decide) (by decide) (by decide)

/-- C5: for a power-of-two capacity N and every number M of appends starting from cursor 0,
iterating the cursor update `p -> (p + 1) & (N - 1)` M times gives `M mod N`, and this is
the cursor of the state reached by any M sequential appends to the initial buffer. -/
theorem cursor_eq_count_mod (cfg : Config) (k M : Nat)
    (hen : debug_log_compiled_in cfg = true)
    (hN : cfg.NRF_802154_DEBUG_LOG_BUFFER_LEN = 2 ^ k)
    (h32 : cfg.NRF_802154_DEBUG_LOG_BUFFER_LEN < 2 ^ 32) :
    (next_ptr cfg)^[M] 0 = M % cfg.NRF_802154_DEBUG_LOG_BUFFER_LEN ∧
      ∀ ws : List Nat, ws.length = M →
        ∃ s, write_all cfg (initial_state cfg) ws = some s ∧
          s.nrf_802154_debug_log_ptr = M % cfg.NRF_802154_DEBUG_LOG_BUFFER_LEN := by
  refine ⟨iterate_next_ptr cfg k hN h32 M, ?_⟩
  intro ws hM
  obtain ⟨s, hrun, _, hptr, _, _⟩ := write_all_initial cfg k hen hN h32 ws
  exact ⟨s, hrun, by rw [hptr, hM]⟩

/-- Instance of C5: capacity 8 and M = 19 appends give cursor 19 mod 8. -/
theorem cursor_eq_count_mod_witness :
    (next_ptr (sample_config 8))^[19] 0 = 19 % 8 ∧
      ∀ ws : List Nat, ws.length = 19 →
        ∃ s, write_all (sample_config 8) (initial_state (sample_config 8)) ws = some s ∧
          s.nrf_802154_debug_log_ptr = 19 % 8 :=
  cursor_eq_count_mod (sample_config 8) 3 19 (by decide) (by decide) (by decide)

/-- C6: for a capacity of at least one slot, "cursor below the capacity" holds in the
initial state, every append from a state satisfying it returns a state satisfying it, and so
every run of appends from the initial state returns a state whose cursor indexes a slot of
the buffer. -/
theorem cursor_in_bounds_invariant (cfg : Config)
    (h0 : 0 < cfg.NRF_802154_DEBUG_LOG_BUFFER_LEN) :
    cursor_in_bounds cfg (initial_state cfg) ∧
      (∀ s w, cursor_in_bounds cfg s →
        ∃ s', nrf_802154_debug_log_write_raw cfg s w = some s' ∧ cursor_in_bounds cfg s') ∧
      (∀ ws, ∃ s, write_all cfg (initial_state cfg) ws = some s ∧
        s.nrf_802154_debug_log_ptr < cfg.NRF_802154_DEBUG_LOG_BUFFER_LEN ∧
        s.nrf_802154_debug_log_ptr < s.nrf_802154_debug_log_buffer.length ∧
        ∀ w, (nrf_802154_debug_log_write_raw cfg s w).isSome = true) := by
  refine ⟨initial_state_in_bounds cfg h0,
    fun s w hinv => write_raw_preserves_bounds cfg s w h0 hinv, ?_⟩
  intro ws
  obtain ⟨s, hrun, hinv⟩ :=
    write_all_preserves_bounds cfg ws h0 _ (initial_state_in_bounds cfg h0)
  refine ⟨s, hrun, hinv.1, ?_, ?_⟩
  · rw [hinv.2]; exact hinv.1
  · intro w
    obtain ⟨s', h', _⟩ := write_raw_preserves_bounds cfg s w h0 hinv
    rw [h']; rfl

/-- Instance of C6 at the default capacity 1024. -/
theorem cursor_in_bounds_invariant_witness :
    0 < (sample_config 1024).NRF_802154_DEBUG_LOG_BUFFER_LEN ∧
    (cursor_in_bounds (sample_config 1024) (initial_state (sample_config 1024)) ∧
      (∀ s w, cursor_in_bounds (sample_config 1024) s →
        ∃ s', nrf_802154_debug_log_write_raw (sample_config 1024) s w = some s' ∧
          cursor_in_bounds (sample_config 1024) s') ∧
      (∀ ws, ∃ s, write_all (sample_config 1024) (initial_state (sample_config 1024)) ws =
          some s ∧
        s.nrf_802154_debug_log_ptr < (sample_config 1024).NRF_802154_DEBUG_LOG_BUFFER_LEN ∧
        s.nrf_802154_debug_log_ptr < s.nrf_802154_debug_log_buffer.length ∧
        ∀ w, (nrf_802154_debug_log_write_raw (sample_config 1024) s w).isSome = true)) :=
  ⟨by decide, cursor_in_bounds_invariant (sample_config 1024) (by decide)⟩

/-- C7: from a state whose cursor `p` is below the capacity, one append returns a state in
which every slot other than `p` holds what it held before, and the buffer has the same
number of slots. -/
theorem write_raw_frame (cfg : Config) (s : LogState) (w : Nat)
    (hp : s.nrf_802154_debug_log_ptr < cfg.NRF_802154_DEBUG_LOG_BUFFER_LEN) :
    ∃ s', nrf_802154_debug_log_write_raw cfg s w = some s' ∧
      s'.nrf_802154_debug_log_buffer.length = s.nrf_802154_debug_log_buffer.length ∧
      ∀ i, i ≠ s.nrf_802154_debug_log_ptr →
        s'.nrf_802154_debug_log_buffer[i]? = s.nrf_802154_debug_log_buffer[i]? := by
  cases hen : debug_log_compiled_in cfg with
  | false => exact ⟨s, write_raw_disabled cfg s w hen, rfl, fun _ _ => rfl⟩
  | true =>
    refine ⟨_, write_raw_eq cfg s w hen hp, ?_, ?_⟩
    · simp
    · intro i hi
      exact List.getElem?_set_ne (Ne.symm hi)

/-- Instance of C7: capacity 8 holding `0x10 .. 0x17` with cursor 0; appending `0x18` puts
it in slot 0, moves the cursor to 1 and leaves slots 1 to 7 as they were. -/
theorem write_raw_frame_witness :
    nrf_802154_debug_log_write_raw (sample_config 8) (sample_state 0) 0x18 =
        some { nrf_802154_debug_log_buffer := [0x18, 0x11, 0x12, 0x13, 0x14, 0x15, 0x16, 0x17]
               nrf_802154_debug_log_ptr := 1 } ∧
      ∃ s', nrf_802154_debug_log_write_raw (sample_config 8) (sample_state 0) 0x18 = some s' ∧
        s'.nrf_802154_debug_log_buffer.length = 8 ∧
        ∀ i, i ≠ 0 →
          s'.nrf_802154_debug_log_buffer[i]? =
            [0x10, 0x11, 0x12, 0x13, 0x14, 0x15, 0x16, 0x17][i]? :=
  ⟨by decide, write_raw_frame (sample_config 8) (sample_state 0) 0x18 (by decide)⟩

/-! ## Claims on the encoder and the verbosity gate -/

/-- C2: with type constants at most 15, module id at most 63, event id at most 63 and payload
at most 65535, the word built by `nrf_802154_log_local_event` and by
`nrf_802154_log_global_event` decodes by the documented bit positions to the type constant,
the module id, the event id and the payload, and is the sum of the four shifted fields, so
it has no other bit set and is stored as it is. -/
theorem event_word_roundtrip (cfg : Config) (e v : Nat)
    (hL : cfg.NRF_802154_LOG_TYPE_LOCAL_EVENT ≤ 15)
    (hG : cfg.NRF_802154_LOG_TYPE_GLOBAL_EVENT ≤ 15)
    (hm : cfg.NRF_802154_MODULE_ID ≤ 63) (he : e ≤ 63) (hv : v ≤ 65535) :
    (type_field (local_event_word cfg e v) = cfg.NRF_802154_LOG_TYPE_LOCAL_EVENT ∧
      module_field (local_event_word cfg e v) = cfg.NRF_802154_MODULE_ID ∧
      event_field (local_event_word cfg e v) = e ∧
      payload_field (local_event_word cfg e v) = v ∧
      u32 (local_event_word cfg e v) = local_event_word cfg e v) ∧
    (type_field (global_event_word cfg e v) = cfg.NRF_802154_LOG_TYPE_GLOBAL_EVENT ∧
      module_field (global_event_word cfg e v) = cfg.NRF_802154_MODULE_ID ∧
      event_field (global_event_word cfg e v) = e ∧
      payload_field (global_event_word cfg e v) = v ∧
      u32 (global_event_word cfg e v) = global_event_word cfg e v) ∧
    local_event_word cfg e v =
      cfg.NRF_802154_LOG_TYPE_LOCAL_EVENT * 2 ^ 28 + cfg.NRF_802154_MODULE_ID * 2 ^ 22 +
        e * 2 ^ 16 + v ∧
    global_event_word cfg e v =
      cfg.NRF_802154_LOG_TYPE_GLOBAL_EVENT * 2 ^ 28 + cfg.NRF_802154_MODULE_ID * 2 ^ 22 +
        e * 2 ^ 16 + v := by
  have hl := pack_event cfg.NRF_802154_LOG_TYPE_LOCAL_EVENT cfg.NRF_802154_MODULE_ID e v
    hL hm he hv
  have hg := pack_event cfg.NRF_802154_LOG_TYPE_GLOBAL_EVENT cfg.NRF_802154_MODULE_ID e v
    hG hm he hv
  exact ⟨unpack_event _ _ _ _ _ hL hm he hv hl, unpack_event _ _ _ _ _ hG hm he hv hg, hl, hg⟩

/-- Instance of C2: local event 5 of module 3 with payload `0xABCD` and type constant 3 is
the word `0x30C5ABCD`. -/
theorem event_word_roundtrip_witness :
    local_event_word (sample_config 8) 5 0xABCD = 0x30C5ABCD ∧
    ((type_field (local_event_word (sample_config 8) 5 0xABCD) = 3 ∧
      module_field (local_event_word (sample_config 8) 5 0xABCD) = 3 ∧
      event_field (local_event_word (sample_config 8) 5 0xABCD) = 5 ∧
      payload_field (local_event_word (sample_config 8) 5 0xABCD) = 0xABCD ∧
      u32 (local_event_word (sample_config 8) 5 0xABCD) =
        local_event_word (sample_config 8) 5 0xABCD) ∧
    (type_field (global_event_word (sample_config 8) 5 0xABCD) = 4 ∧
      module_field (global_event_word (sample_config 8) 5 0xABCD) = 3 ∧
      event_field (global_event_word (sample_config 8) 5 0xABCD) = 5 ∧
      payload_field (global_event_word (sample_config 8) 5 0xABCD) = 0xABCD ∧
      u32 (global_event_word (sample_config 8) 5 0xABCD) =
        global_event_word (sample_config 8) 5 0xABCD) ∧
    local_event_word (sample_config 8) 5 0xABCD = 3 * 2 ^ 28 + 3 * 2 ^ 22 + 5 * 2 ^ 16 + 0xABCD ∧
    global_event_word (sample_config 8) 5 0xABCD =
      4 * 2 ^ 28 + 3 * 2 ^ 22 + 5 * 2 ^ 16 + 0xABCD) :=
  ⟨by decide, event_word_roundtrip (sample_config 8) 5 0xABCD
    (by decide) (by decide) (by decide) (by decide) (by decide)⟩

/-- With both operands of type `int`, or with a non-negative threshold, the gate compares
the numbers the operands stand for. -/
theorem verbosity_allows_by_value (cfg : Config) (verbosity : CInt)
    (hv : verbosity.in_range = true)
    (ht : cfg.NRF_802154_LOG_VERBOSITY.in_range = true)
    (h : (∃ x y, verbosity = CInt.int x ∧ cfg.NRF_802154_LOG_VERBOSITY = CInt.int y) ∨
      0 ≤ cfg.NRF_802154_LOG_VERBOSITY.value) :
    nrf_802154_debug_log_verbosity_allows cfg verbosity = true ↔
      0 < verbosity.value ∧ verbosity.value ≤ cfg.NRF_802154_LOG_VERBOSITY.value := by
  unfold nrf_802154_debug_log_verbosity_allows
  generalize cfg.NRF_802154_LOG_VERBOSITY = t at ht h ⊢
  cases verbosity with
  | int x =>
    cases t with
    | int y => simp [c_gt, c_le, CInt.value]
    | unsigned y =>
      simp only [CInt.in_range, Bool.and_eq_true, decide_eq_true_eq] at hv ht
      simp only [c_gt, c_le, CInt.value, CInt.to_unsigned, Bool.and_eq_true,
        decide_eq_true_eq]
      omega
  | unsigned x =>
    cases t with
    | int y =>
      have hy : 0 ≤ y := by
        rcases h with ⟨a, b, h1, _⟩ | h
        · cases h1
        · exact h
      simp only [CInt.in_range, Bool.and_eq_true, decide_eq_true_eq] at hv ht
      simp only [c_gt, c_le, CInt.value, CInt.to_unsigned, Bool.and_eq_true,
        decide_eq_true_eq]
      omega
    | unsigned y =>
      simp only [CInt.in_range, Bool.and_eq_true, decide_eq_true_eq] at hv ht
      simp only [c_gt, c_le, CInt.value, CInt.to_unsigned, Bool.and_eq_true,
        decide_eq_true_eq]
      omega

/-- With an `unsigned int` verbosity and a negative `int` threshold, the threshold is
converted to `unsigned int` before the comparison. -/
theorem verbosity_allows_converted (cfg : Config) (x : Nat) (y : Int)
    (hx : (CInt.unsigned x).in_range = true)
    (ht : cfg.NRF_802154_LOG_VERBOSITY.in_range = true)
    (hcfg : cfg.NRF_802154_LOG_VERBOSITY = CInt.int y) (hy : y < 0) :
    nrf_802154_debug_log_verbosity_allows cfg (CInt.unsigned x) = true ↔
      0 < x ∧ (x : Int) ≤ y + 2 ^ 32 := by
  unfold nrf_802154_debug_log_verbosity_allows
  rw [hcfg] at ht ⊢
  simp only [CInt.in_range, Bool.and_eq_true, decide_eq_true_eq] at hx ht
  simp only [c_gt, c_le, CInt.to_unsigned, Bool.and_eq_true, decide_eq_true_eq]
  omega

theorem shl32_lt (a k : Nat) : shl32 a k < 2 ^ 32 := by
  unfold shl32
  exact Nat.mod_lt _ (by decide)

theorem function_enter_word_lt (cfg : Config) (func : Nat) :
    function_enter_word cfg func < 2 ^ 32 :=
  Nat.or_lt_two_pow (Nat.or_lt_two_pow (shl32_lt _ _) (shl32_lt _ _)) (shl32_lt _ _)

theorem function_exit_word_lt (cfg : Config) (func : Nat) :
    function_exit_word cfg func < 2 ^ 32 :=
  Nat.or_lt_two_pow (Nat.or_lt_two_pow (shl32_lt _ _) (shl32_lt _ _)) (shl32_lt _ _)

theorem local_event_word_lt (cfg : Config) (e v : Nat) :
    local_event_word cfg e v < 2 ^ 32 :=
  Nat.or_lt_two_pow (Nat.or_lt_two_pow (Nat.or_lt_two_pow (shl32_lt _ _) (shl32_lt _ _))
    (shl32_lt _ _)) (shl32_lt _ _)

theorem global_event_word_lt (cfg : Config) (e v : Nat) :
    global_event_word cfg e v < 2 ^ 32 :=
  Nat.or_lt_two_pow (Nat.or_lt_two_pow (Nat.or_lt_two_pow (shl32_lt _ _) (shl32_lt _ _))
    (shl32_lt _ _)) (shl32_lt _ _)

/-- With the log compiled in and the cursor in bounds, the append of a 32-bit word puts the
word in the slot of the cursor and advances the cursor. -/
theorem write_raw_word (cfg : Config) (s : LogState) (w : Nat)
    (hen : debug_log_compiled_in cfg = true) (hs : cursor_in_bounds cfg s)
    (hw : w < 2 ^ 32) :
    nrf_802154_debug_log_write_raw cfg s w =
      some { nrf_802154_debug_log_buffer :=
               s.nrf_802154_debug_log_buffer.set s.nrf_802154_debug_log_ptr w
             nrf_802154_debug_log_ptr := next_ptr cfg s.nrf_802154_debug_log_ptr } := by
  rw [write_raw_eq cfg s w hen hs.1, u32_of_lt hw]

/-- C8, as stated, fails: the macro is untyped, and with an `unsigned int` verbosity 1 and
the threshold `-1` the threshold is converted to `UINT_MAX`, so the gate is true and the
local event is recorded, although 1 is not at most -1. -/
theorem verbosity_gate_unsigned_counterexample :
    nrf_802154_debug_log_verbosity_allows (sample_config_threshold 8 (CInt.int (-1)))
        (CInt.unsigned 1) = true ∧
      ¬ (0 < (CInt.unsigned 1).value ∧ (CInt.unsigned 1).value ≤ (CInt.int (-1)).value) ∧
      nrf_802154_log_local_event (sample_config_threshold 8 (CInt.int (-1)))
          (initial_state (sample_config 8)) (CInt.unsigned 1) 5 0xABCD =
        some { nrf_802154_debug_log_buffer := [0x30C5ABCD, 0, 0, 0, 0, 0, 0, 0]
               nrf_802154_debug_log_ptr := 1 } := by
  decide

/-- C8, amended: for a requested verbosity and a compiled threshold that are values of type
`int` or `unsigned int`, `nrf_802154_debug_log_verbosity_allows` is true exactly when the
verbosity is positive and at most the threshold, provided both are `int` or the threshold
is not negative; for an `unsigned int` verbosity `x` and a negative threshold `y` it is true
exactly when `x` is positive and at most `y + 2 ^ 32`. With the log compiled in and the
cursor in bounds, each of the four log operations appends exactly one word when the gate is
true: the word is stored in the slot of the cursor, the cursor advances once and nothing
else changes. Each of them returns the state unchanged when the gate is false. -/
theorem verbosity_gate (cfg : Config) (s : LogState) (verbosity : CInt) (func e v : Nat)
    (hv : verbosity.in_range = true)
    (ht : cfg.NRF_802154_LOG_VERBOSITY.in_range = true) :
    (((∃ x y, verbosity = CInt.int x ∧ cfg.NRF_802154_LOG_VERBOSITY = CInt.int y) ∨
        0 ≤ cfg.NRF_802154_LOG_VERBOSITY.value) →
      (nrf_802154_debug_log_verbosity_allows cfg verbosity = true ↔
        0 < verbosity.value ∧ verbosity.value ≤ cfg.NRF_802154_LOG_VERBOSITY.value)) ∧
    (∀ x y, verbosity = CInt.unsigned x → cfg.NRF_802154_LOG_VERBOSITY = CInt.int y → y < 0 →
      (nrf_802154_debug_log_verbosity_allows cfg verbosity = true ↔
        0 < x ∧ (x : Int) ≤ y + 2 ^ 32)) ∧
    (nrf_802154_debug_log_verbosity_allows cfg verbosity = true →
      debug_log_compiled_in cfg = true → cursor_in_bounds cfg s →
      nrf_802154_log_function_enter cfg s verbosity func =
        some { nrf_802154_debug_log_buffer :=
                 s.nrf_802154_debug_log_buffer.set s.nrf_802154_debug_log_ptr
                   (function_enter_word cfg func)
               nrf_802154_debug_log_ptr := next_ptr cfg s.nrf_802154_debug_log_ptr } ∧
      nrf_802154_log_function_exit cfg s verbosity func =
        some { nrf_802154_debug_log_buffer :=
                 s.nrf_802154_debug_log_buffer.set s.nrf_802154_debug_log_ptr
                   (function_exit_word cfg func)
               nrf_802154_debug_log_ptr := next_ptr cfg s.nrf_802154_debug_log_ptr } ∧
      nrf_802154_log_local_event cfg s verbosity e v =
        some { nrf_802154_debug_log_buffer :=
                 s.nrf_802154_debug_log_buffer.set s.nrf_802154_debug_log_ptr
                   (local_event_word cfg e v)
               nrf_802154_debug_log_ptr := next_ptr cfg s.nrf_802154_debug_log_ptr } ∧
      nrf_802154_log_global_event cfg s verbosity e v =
        some { nrf_802154_debug_log_buffer :=
                 s.nrf_802154_debug_log_buffer.set s.nrf_802154_debug_log_ptr
                   (global_event_word cfg e v)
               nrf_802154_debug_log_ptr := next_ptr cfg s.nrf_802154_debug_log_ptr } ∧
      (s.nrf_802154_debug_log_buffer.set s.nrf_802154_debug_log_ptr
          (local_event_word cfg e v))[s.nrf_802154_debug_log_ptr]? =
        some (local_event_word cfg e v) ∧
      ∀ w i, i ≠ s.nrf_802154_debug_log_ptr →
        (s.nrf_802154_debug_log_buffer.set s.nrf_802154_debug_log_ptr w)[i]? =
          s.nrf_802154_debug_log_buffer[i]?) ∧
    (nrf_802154_debug_log_verbosity_allows cfg verbosity = false →
      nrf_802154_log_function_enter cfg s verbosity func = some s ∧
      nrf_802154_log_function_exit cfg s verbosity func = some s ∧
      nrf_802154_log_local_event cfg s verbosity e v = some s ∧
      nrf_802154_log_global_event cfg s verbosity e v = some s) := by
  refine ⟨verbosity_allows_by_value cfg verbosity hv ht, ?_, ?_, ?_⟩
  · intro x y hx hy hneg
    subst hx
    exact verbosity_allows_converted cfg x y hv ht hy hneg
  · intro h hen hs
    refine ⟨?_, ?_, ?_, ?_, ?_, ?_⟩
    · simp only [nrf_802154_log_function_enter, h, if_true]
      exact write_raw_word cfg s _ hen hs (function_enter_word_lt cfg func)
    · simp only [nrf_802154_log_function_exit, h, if_true]
      exact write_raw_word cfg s _ hen hs (function_exit_word_lt cfg func)
    · simp only [nrf_802154_log_local_event, h, if_true]
      exact write_raw_word cfg s _ hen hs (local_event_word_lt cfg e v)
    · simp only [nrf_802154_log_global_event, h, if_true]
      exact write_raw_word cfg s _ hen hs (global_event_word_lt cfg e v)
    · exact List.getElem?_set_self (by rw [hs.2]; exact hs.1)
    · intro w i hi
      exact List.getElem?_set_ne (Ne.symm hi)
  · intro h
    simp [nrf_802154_log_function_enter, nrf_802154_log_function_exit,
      nrf_802154_log_local_event, nrf_802154_log_global_event, h]

/-- Instance of amended C8 with the `int` threshold LOW: LOW is allowed and HIGH is not; a
local event of verbosity LOW puts `0x30C5ABCD` in slot 0 of the initial buffer and moves the
cursor to 1, and the same event of verbosity HIGH leaves the state as it was. -/
theorem verbosity_gate_witness :
    nrf_802154_log_local_event (sample_config 8) (initial_state (sample_config 8))
        NRF_802154_LOG_VERBOSITY_LOW 5 0xABCD =
      some { nrf_802154_debug_log_buffer := [0x30C5ABCD, 0, 0, 0, 0, 0, 0, 0]
             nrf_802154_debug_log_ptr := 1 } ∧
    (nrf_802154_debug_log_verbosity_allows (sample_config 8) NRF_802154_LOG_VERBOSITY_LOW =
        true ↔
      0 < NRF_802154_LOG_VERBOSITY_LOW.value ∧
        NRF_802154_LOG_VERBOSITY_LOW.value ≤
          (sample_config 8).NRF_802154_LOG_VERBOSITY.value) ∧
    nrf_802154_log_local_event (sample_config 8) (initial_state (sample_config 8))
        NRF_802154_LOG_VERBOSITY_LOW 5 0xABCD =
      some { nrf_802154_debug_log_buffer :=
               (initial_state (sample_config 8)).nrf_802154_debug_log_buffer.set
                 (initial_state (sample_config 8)).nrf_802154_debug_log_ptr
                 (local_event_word (sample_config 8) 5 0xABCD)
             nrf_802154_debug_log_ptr :=
               next_ptr (sample_config 8)
                 (initial_state (sample_config 8)).nrf_802154_debug_log_ptr } ∧
    nrf_802154_log_local_event (sample_config 8) (initial_state (sample_config 8))
        NRF_802154_LOG_VERBOSITY_HIGH 5 0xABCD = some (initial_state (sample_config 8)) :=
  ⟨by decide,
    (verbosity_gate (sample_config 8) (initial_state (sample_config 8))
      NRF_802154_LOG_VERBOSITY_LOW 0 5 0xABCD (by decide) (by decide)).1
      (Or.inr (by decide)),
    ((verbosity_gate (sample_config 8) (initial_state (sample_config 8))
      NRF_802154_LOG_VERBOSITY_LOW 0 5 0xABCD (by decide) (by decide)).2.2.1
      (by decide) (by decide) ⟨by decide, by decide⟩).2.2.1,
    ((verbosity_gate (sample_config 8) (initial_state (sample_config 8))
      NRF_802154_LOG_VERBOSITY_HIGH 0 5 0xABCD (by decide) (by decide)).2.2.2
      (by decide)).2.2.1⟩

/-- C9, as stated, fails: with type constant 1 and module id 3, the function identifier
`0x20000000` gives a function-entry word whose type field is 3, not 1. -/
theorem function_word_type_counterexample :
    type_field (function_enter_word (sample_config 8) 0x20000000) = 3 ∧
      type_field (function_enter_word (sample_config 8) 0x20000000) ≠
        (sample_config 8).NRF_802154_LOG_TYPE_FUNCTION_ENTER := by
  decide

/-- C9, amended: for module id at most 63, type constants at most 15 and a 32-bit function
identifier `f`, the word built by `nrf_802154_log_function_enter` (resp.
`nrf_802154_log_function_exit`) has its low 22 bits equal to `f` truncated to 22 bits, its
type field equal to the FunctionEnter (resp. FunctionExit) constant OR-ed with bits 28-31
of `f`, and its module field equal to the module id OR-ed with bits 22-27 of `f`. -/
theorem function_word_layout (cfg : Config) (f : Nat)
    (hE : cfg.NRF_802154_LOG_TYPE_FUNCTION_ENTER ≤ 15)
    (hX : cfg.NRF_802154_LOG_TYPE_FUNCTION_EXIT ≤ 15)
    (hm : cfg.NRF_802154_MODULE_ID ≤ 63) (hf : f < 2 ^ 32) :
    (function_field (function_enter_word cfg f) = f % 2 ^ 22 ∧
      type_field (function_enter_word cfg f) =
        cfg.NRF_802154_LOG_TYPE_FUNCTION_ENTER ||| type_field f ∧
      module_field (function_enter_word cfg f) =
        cfg.NRF_802154_MODULE_ID ||| module_field f) ∧
    (function_field (function_exit_word cfg f) = f % 2 ^ 22 ∧
      type_field (function_exit_word cfg f) =
        cfg.NRF_802154_LOG_TYPE_FUNCTION_EXIT ||| type_field f ∧
      module_field (function_exit_word cfg f) =
        cfg.NRF_802154_MODULE_ID ||| module_field f) :=
  ⟨function_word_fields _ _ f hE hm hf, function_word_fields _ _ f hX hm hf⟩

/-- Instance of amended C9 at the function identifier `0x20012345`. -/
theorem function_word_layout_witness :
    (function_field (function_enter_word (sample_config 8) 0x20012345) = 0x20012345 % 2 ^ 22 ∧
      type_field (function_enter_word (sample_config 8) 0x20012345) =
        1 ||| type_field 0x20012345 ∧
      module_field (function_enter_word (sample_config 8) 0x20012345) =
        3 ||| module_field 0x20012345) ∧
    (function_field (function_exit_word (sample_config 8) 0x20012345) = 0x20012345 % 2 ^ 22 ∧
      type_field (function_exit_word (sample_config 8) 0x20012345) =
        2 ||| type_field 0x20012345 ∧
      module_field (function_exit_word (sample_config 8) 0x20012345) =
        3 ||| module_field 0x20012345) :=
  function_word_layout (sample_config 8) 0x20012345
    (by decide) (by decide) (by decide) (by decide)

/-- C10: for every payload value `v`, the local and the global event word equal the word
built from `v mod 65536`; bits 16-31 of the word are the same for every payload, and bits
0-15 are `v mod 65536`. -/
theorem event_word_payload_truncated (cfg : Config) (e v v' : Nat) :
    (local_event_word cfg e v = local_event_word cfg e (v % 65536) ∧
      local_event_word cfg e v >>> 16 = local_event_word cfg e v' >>> 16 ∧
      payload_field (local_event_word cfg e v) = v % 65536) ∧
    (global_event_word cfg e v = global_event_word cfg e (v % 65536) ∧
      global_event_word cfg e v >>> 16 = global_event_word cfg e v' >>> 16 ∧
      payload_field (global_event_word cfg e v) = v % 65536) :=
  ⟨event_word_payload _ v v' (event_word_high_part _ _ e),
    event_word_payload _ v v' (event_word_high_part _ _ e)⟩

/-! ## Out-of-range fields -/

theorem event_field_or (a b : Nat) :
    event_field (a ||| b) = event_field a ||| event_field b := by
  simp only [event_field_eq, ← Nat.shiftRight_eq_div_pow, or_shiftRight, or_mod_two_pow]

theorem type_field_shl32_module_any (m : Nat) :
    type_field (shl32 m NRF_802154_DEBUG_LOG_MODULE_ID_BITPOS) = m / 64 % 16 := by
  rw [type_field_eq]
  unfold shl32 NRF_802154_DEBUG_LOG_MODULE_ID_BITPOS
  simp only [Nat.shiftLeft_eq]
  omega

theorem type_field_shl32_event (e : Nat) :
    type_field (shl32 e NRF_802154_DEBUG_LOG_EVENT_ID_BITPOS) = e / 4096 % 16 := by
  rw [type_field_eq]
  unfold shl32 NRF_802154_DEBUG_LOG_EVENT_ID_BITPOS
  simp only [Nat.shiftLeft_eq]
  omega

theorem module_field_shl32_event (e : Nat) :
    module_field (shl32 e NRF_802154_DEBUG_LOG_EVENT_ID_BITPOS) = e / 64 % 64 := by
  rw [module_field_eq]
  unfold shl32 NRF_802154_DEBUG_LOG_EVENT_ID_BITPOS
  simp only [Nat.shiftLeft_eq]
  omega

theorem event_field_shl32_event (e : Nat) :
    event_field (shl32 e NRF_802154_DEBUG_LOG_EVENT_ID_BITPOS) = e % 64 := by
  rw [event_field_eq]
  unfold shl32 NRF_802154_DEBUG_LOG_EVENT_ID_BITPOS
  simp only [Nat.shiftLeft_eq]
  omega

theorem event_field_shl32_type (T : Nat) :
    event_field (shl32 T NRF_802154_DEBUG_LOG_TYPE_BITPOS) = 0 := by
  rw [event_field_eq]
  unfold shl32 NRF_802154_DEBUG_LOG_TYPE_BITPOS
  simp only [Nat.shiftLeft_eq]
  omega

theorem event_field_shl32_module (m : Nat) :
    event_field (shl32 m NRF_802154_DEBUG_LOG_MODULE_ID_BITPOS) = 0 := by
  rw [event_field_eq]
  unfold shl32 NRF_802154_DEBUG_LOG_MODULE_ID_BITPOS
  simp only [Nat.shiftLeft_eq]
  omega

theorem high_fields_shl32_u16 (v : Nat) :
    type_field (shl32 (u16 v) 0) = 0 ∧ module_field (shl32 (u16 v) 0) = 0 ∧
      event_field (shl32 (u16 v) 0) = 0 := by
  rw [type_field_eq, module_field_eq, event_field_eq, shl32_u16_zero]
  refine ⟨?_, ?_, ?_⟩ <;> omega

/-- The three upper fields of an event word with type constant `T`, module id `m` and an
arbitrary event id `e`. -/
theorem event_word_fields (T m e v : Nat) (hT : T ≤ 15) :
    let w := shl32 T NRF_802154_DEBUG_LOG_TYPE_BITPOS |||
      shl32 m NRF_802154_DEBUG_LOG_MODULE_ID_BITPOS |||
      shl32 e NRF_802154_DEBUG_LOG_EVENT_ID_BITPOS ||| shl32 (u16 v) 0
    event_field w = e % 64 ∧
      module_field w = m % 64 ||| e / 64 % 64 ∧
      type_field w = T ||| m / 64 % 16 ||| e / 4096 % 16 := by
  intro w
  obtain ⟨h1, h2, h3⟩ := high_fields_shl32_u16 v
  have hmm : module_field (shl32 m NRF_802154_DEBUG_LOG_MODULE_ID_BITPOS) = m % 64 := by
    rw [module_field_eq]
    unfold shl32 NRF_802154_DEBUG_LOG_MODULE_ID_BITPOS
    simp only [Nat.shiftLeft_eq]
    omega
  refine ⟨?_, ?_, ?_⟩
  · simp only [w, event_field_or, event_field_shl32_type, event_field_shl32_module,
      event_field_shl32_event, h3, Nat.zero_or, Nat.or_zero]
  · simp only [w, module_field_or, module_field_shl32_type, hmm, module_field_shl32_event, h2,
      Nat.zero_or, Nat.or_zero]
  · simp only [w, type_field_or, type_field_shl32_type T hT, type_field_shl32_module_any,
      type_field_shl32_event, h1, Nat.or_zero]

theorem or_one_ne_of_even (T : Nat) (hT : T ≤ 15) (he : T % 2 = 0) : T ||| 1 ≠ T := by
  interval_cases T <;> simp_all

theorem or_fifteen (T : Nat) (hT : T ≤ 15) : T ||| 15 = 15 := by
  interval_cases T <;> rfl

/-- The type field of a function word whose identifier is below `2 ^ 22`, for an arbitrary
module id. -/
theorem function_word_type_field (T m f : Nat) (hT : T ≤ 15) (hf : f < 2 ^ 22) :
    type_field (shl32 T NRF_802154_DEBUG_LOG_TYPE_BITPOS |||
      shl32 m NRF_802154_DEBUG_LOG_MODULE_ID_BITPOS ||| shl32 (u32 f) 0) =
      T ||| m / 64 % 16 := by
  have hf0 : type_field (shl32 (u32 f) 0) = 0 := by
    rw [shl32_u32_zero, type_field_eq]
    omega
  simp only [type_field_or, type_field_shl32_type T hT, type_field_shl32_module_any, hf0,
    Nat.or_zero]

/-- The type field of an event word whose event id is at most 63, for an arbitrary module
id. -/
theorem event_word_type_field (T m e v : Nat) (hT : T ≤ 15) (he : e ≤ 63) :
    type_field (shl32 T NRF_802154_DEBUG_LOG_TYPE_BITPOS |||
      shl32 m NRF_802154_DEBUG_LOG_MODULE_ID_BITPOS |||
      shl32 e NRF_802154_DEBUG_LOG_EVENT_ID_BITPOS ||| shl32 (u16 v) 0) =
      T ||| m / 64 % 16 := by
  have h := (event_word_fields T m e v hT).2.2
  have he0 : e / 4096 % 16 = 0 := by omega
  simp only [he0, Nat.or_zero] at h
  exact h

/-- With the type constant, the module id and the identifier in range, the function word is
the sum of its shifted fields. -/
theorem pack_function (T m f : Nat) (hT : T ≤ 15) (hm : m ≤ 63) (hf : f < 2 ^ 22) :
    shl32 T NRF_802154_DEBUG_LOG_TYPE_BITPOS |||
      shl32 m NRF_802154_DEBUG_LOG_MODULE_ID_BITPOS ||| shl32 (u32 f) 0
      = T * 2 ^ 28 + m * 2 ^ 22 + f := by
  unfold shl32 u32 NRF_802154_DEBUG_LOG_TYPE_BITPOS NRF_802154_DEBUG_LOG_MODULE_ID_BITPOS
  have h1 : (T <<< 28) % 2 ^ 32 = 2 ^ 28 * T := by
    simp only [Nat.shiftLeft_eq]; omega
  have h2 : (m <<< 22) % 2 ^ 32 = m * 2 ^ 22 := by
    simp only [Nat.shiftLeft_eq]; omega
  have h4 : ((f % 2 ^ 32) <<< 0) % 2 ^ 32 = f := by
    simp only [Nat.shiftLeft_eq]; omega
  have e1 : 2 ^ 28 * T ||| m * 2 ^ 22 = 2 ^ 22 * (64 * T + m) := by
    rw [← Nat.mul_add_lt_is_or (by omega) T]; omega
  have e2 : 2 ^ 22 * (64 * T + m) ||| f = T * 2 ^ 28 + m * 2 ^ 22 + f := by
    rw [← Nat.mul_add_lt_is_or hf _]; omega
  rw [h1, h2, h4, e1, e2]

/-! ## Claims on out-of-range inputs and on the compiled-out log -/

/-- C11, as stated, fails: with module id 3, local event id 256 gives a word different from
the word of event id `256 mod 64 = 0`, and its module field is 7, not 3. -/
theorem event_id_not_masked_counterexample :
    local_event_word (sample_config 8) 256 0 ≠ local_event_word (sample_config 8) (256 % 64) 0 ∧
      module_field (local_event_word (sample_config 8) 256 0) = 7 ∧
      module_field (local_event_word (sample_config 8) (256 % 64) 0) = 3 := by
  decide

/-- C11, amended: for type constants at most 15, module id at most 63 and an arbitrary event
id `e`, the event field (bits 16-21) of the local and of the global event word is
`e mod 64`, while bits 6-11 of `e` are OR-ed into the module field and bits 12-15 of `e`
into the type field. -/
theorem event_id_layout (cfg : Config) (e v : Nat)
    (hL : cfg.NRF_802154_LOG_TYPE_LOCAL_EVENT ≤ 15)
    (hG : cfg.NRF_802154_LOG_TYPE_GLOBAL_EVENT ≤ 15)
    (hm : cfg.NRF_802154_MODULE_ID ≤ 63) :
    (event_field (local_event_word cfg e v) = e % 64 ∧
      module_field (local_event_word cfg e v) = cfg.NRF_802154_MODULE_ID ||| e / 64 % 64 ∧
      type_field (local_event_word cfg e v) =
        cfg.NRF_802154_LOG_TYPE_LOCAL_EVENT ||| e / 4096 % 16) ∧
    (event_field (global_event_word cfg e v) = e % 64 ∧
      module_field (global_event_word cfg e v) = cfg.NRF_802154_MODULE_ID ||| e / 64 % 64 ∧
      type_field (global_event_word cfg e v) =
        cfg.NRF_802154_LOG_TYPE_GLOBAL_EVENT ||| e / 4096 % 16) := by
  have hm1 : cfg.NRF_802154_MODULE_ID % 64 = cfg.NRF_802154_MODULE_ID := by omega
  have hm2 : cfg.NRF_802154_MODULE_ID / 64 % 16 = 0 := by omega
  have hl := event_word_fields cfg.NRF_802154_LOG_TYPE_LOCAL_EVENT cfg.NRF_802154_MODULE_ID
    e v hL
  have hg := event_word_fields cfg.NRF_802154_LOG_TYPE_GLOBAL_EVENT cfg.NRF_802154_MODULE_ID
    e v hG
  simp only [hm1, hm2, Nat.or_zero] at hl hg
  exact ⟨hl, hg⟩

/-- Instance of amended C11 at event id 256 (bit 8 set) and payload `0xABCD`. -/
theorem event_id_layout_witness :
    (event_field (local_event_word (sample_config 8) 256 0xABCD) = 256 % 64 ∧
      module_field (local_event_word (sample_config 8) 256 0xABCD) = 3 ||| 256 / 64 % 64 ∧
      type_field (local_event_word (sample_config 8) 256 0xABCD) = 3 ||| 256 / 4096 % 16) ∧
    (event_field (global_event_word (sample_config 8) 256 0xABCD) = 256 % 64 ∧
      module_field (global_event_word (sample_config 8) 256 0xABCD) = 3 ||| 256 / 64 % 64 ∧
      type_field (global_event_word (sample_config 8) 256 0xABCD) = 4 ||| 256 / 4096 % 16) :=
  event_id_layout (sample_config 8) 256 0xABCD (by decide) (by decide) (by decide)

/-- C12: with `ENABLE_DEBUG_LOG` false, or `CU_TEST` defined, each of
`nrf_802154_debug_log_write_raw`, `nrf_802154_log_function_enter`,
`nrf_802154_log_function_exit`, `nrf_802154_log_local_event` and
`nrf_802154_log_global_event` returns the state it was given, for every state, verbosity
and argument. -/
theorem log_compiled_out_is_noop (cfg : Config) (s : LogState) (verbosity : CInt)
    (w func e v : Nat)
    (hoff : cfg.ENABLE_DEBUG_LOG = false ∨ cfg.CU_TEST = true) :
    nrf_802154_debug_log_write_raw cfg s w = some s ∧
      nrf_802154_log_function_enter cfg s verbosity func = some s ∧
      nrf_802154_log_function_exit cfg s verbosity func = some s ∧
      nrf_802154_log_local_event cfg s verbosity e v = some s ∧
      nrf_802154_log_global_event cfg s verbosity e v = some s := by
  have hen : debug_log_compiled_in cfg = false := by
    unfold debug_log_compiled_in
    rcases hoff with h | h <;> simp [h]
  have hraw : ∀ x, nrf_802154_debug_log_write_raw cfg s x = some s :=
    fun x => write_raw_disabled cfg s x hen
  refine ⟨hraw w, ?_, ?_, ?_, ?_⟩
  · unfold nrf_802154_log_function_enter
    split
    · exact hraw _
    · rfl
  · unfold nrf_802154_log_function_exit
    split
    · exact hraw _
    · rfl
  · unfold nrf_802154_log_local_event
    split
    · exact hraw _
    · rfl
  · unfold nrf_802154_log_global_event
    split
    · exact hraw _
    · rfl

/-- Instance of C12: with `ENABLE_DEBUG_LOG` off, a raw write and the four log operations at
verbosity LOW leave the capacity-8 buffer `0x10 .. 0x17` with cursor 3 as it is. -/
theorem log_compiled_out_is_noop_witness :
    nrf_802154_debug_log_write_raw (sample_config_log_off 8) (sample_state 3) 0x18 =
        some (sample_state 3) ∧
      nrf_802154_log_function_enter (sample_config_log_off 8) (sample_state 3)
        NRF_802154_LOG_VERBOSITY_LOW 0x12345 = some (sample_state 3) ∧
      nrf_802154_log_function_exit (sample_config_log_off 8) (sample_state 3)
        NRF_802154_LOG_VERBOSITY_LOW 0x12345 = some (sample_state 3) ∧
      nrf_802154_log_local_event (sample_config_log_off 8) (sample_state 3)
        NRF_802154_LOG_VERBOSITY_LOW 5 0xABCD = some (sample_state 3) ∧
      nrf_802154_log_global_event (sample_config_log_off 8) (sample_state 3)
        NRF_802154_LOG_VERBOSITY_LOW 5 0xABCD = some (sample_state 3) :=
  log_compiled_out_is_noop (sample_config_log_off 8) (sample_state 3)
    NRF_802154_LOG_VERBOSITY_LOW 0x18 0x12345 5 0xABCD (Or.inl (by decide))

/-- C15: the module id is not range-checked. For type constants at most 15, a function
identifier below `2 ^ 22` and an event id at most 63, the type field of each of the four
words is the type constant OR-ed with bits 6-9 of the module id. With module id 64 it
differs from every even type constant, and with module id 960 it is 15 for every
category. -/
theorem module_id_bleeds_into_type (cfg : Config) (f e v : Nat)
    (hE : cfg.NRF_802154_LOG_TYPE_FUNCTION_ENTER ≤ 15)
    (hX : cfg.NRF_802154_LOG_TYPE_FUNCTION_EXIT ≤ 15)
    (hL : cfg.NRF_802154_LOG_TYPE_LOCAL_EVENT ≤ 15)
    (hG : cfg.NRF_802154_LOG_TYPE_GLOBAL_EVENT ≤ 15)
    (hf : f < 2 ^ 22) (he : e ≤ 63) :
    (type_field (function_enter_word cfg f) =
        cfg.NRF_802154_LOG_TYPE_FUNCTION_ENTER ||| cfg.NRF_802154_MODULE_ID / 64 % 16 ∧
      type_field (function_exit_word cfg f) =
        cfg.NRF_802154_LOG_TYPE_FUNCTION_EXIT ||| cfg.NRF_802154_MODULE_ID / 64 % 16 ∧
      type_field (local_event_word cfg e v) =
        cfg.NRF_802154_LOG_TYPE_LOCAL_EVENT ||| cfg.NRF_802154_MODULE_ID / 64 % 16 ∧
      type_field (global_event_word cfg e v) =
        cfg.NRF_802154_LOG_TYPE_GLOBAL_EVENT ||| cfg.NRF_802154_MODULE_ID / 64 % 16) ∧
    (cfg.NRF_802154_MODULE_ID = 64 →
      (cfg.NRF_802154_LOG_TYPE_FUNCTION_ENTER % 2 = 0 →
        type_field (function_enter_word cfg f) ≠ cfg.NRF_802154_LOG_TYPE_FUNCTION_ENTER) ∧
      (cfg.NRF_802154_LOG_TYPE_FUNCTION_EXIT % 2 = 0 →
        type_field (function_exit_word cfg f) ≠ cfg.NRF_802154_LOG_TYPE_FUNCTION_EXIT) ∧
      (cfg.NRF_802154_LOG_TYPE_LOCAL_EVENT % 2 = 0 →
        type_field (local_event_word cfg e v) ≠ cfg.NRF_802154_LOG_TYPE_LOCAL_EVENT) ∧
      (cfg.NRF_802154_LOG_TYPE_GLOBAL_EVENT % 2 = 0 →
        type_field (global_event_word cfg e v) ≠ cfg.NRF_802154_LOG_TYPE_GLOBAL_EVENT)) ∧
    (cfg.NRF_802154_MODULE_ID = 960 →
      type_field (function_enter_word cfg f) = 15 ∧
      type_field (function_exit_word cfg f) = 15 ∧
      type_field (local_event_word cfg e v) = 15 ∧
      type_field (global_event_word cfg e v) = 15) := by
  have h1 : type_field (function_enter_word cfg f) =
      cfg.NRF_802154_LOG_TYPE_FUNCTION_ENTER ||| cfg.NRF_802154_MODULE_ID / 64 % 16 :=
    function_word_type_field _ _ f hE hf
  have h2 : type_field (function_exit_word cfg f) =
      cfg.NRF_802154_LOG_TYPE_FUNCTION_EXIT ||| cfg.NRF_802154_MODULE_ID / 64 % 16 :=
    function_word_type_field _ _ f hX hf
  have h3 : type_field (local_event_word cfg e v) =
      cfg.NRF_802154_LOG_TYPE_LOCAL_EVENT ||| cfg.NRF_802154_MODULE_ID / 64 % 16 :=
    event_word_type_field _ _ e v hL he
  have h4 : type_field (global_event_word cfg e v) =
      cfg.NRF_802154_LOG_TYPE_GLOBAL_EVENT ||| cfg.NRF_802154_MODULE_ID / 64 % 16 :=
    event_word_type_field _ _ e v hG he
  refine ⟨⟨h1, h2, h3, h4⟩, ?_, ?_⟩
  · intro hm
    have hk : cfg.NRF_802154_MODULE_ID / 64 % 16 = 1 := by omega
    rw [h1, h2, h3, h4, hk]
    exact ⟨or_one_ne_of_even _ hE, or_one_ne_of_even _ hX, or_one_ne_of_even _ hL,
      or_one_ne_of_even _ hG⟩
  · intro hm
    have hk : cfg.NRF_802154_MODULE_ID / 64 % 16 = 15 := by omega
    rw [h1, h2, h3, h4, hk]
    exact ⟨or_fifteen _ hE, or_fifteen _ hX, or_fifteen _ hL, or_fifteen _ hG⟩

/-- Instance of C15 with module id 64 and type constants 1, 2, 3, 4: the function-exit
word decodes to type 3 instead of 2 and the global event word to type 5 instead of 4. -/
theorem module_id_bleeds_into_type_witness :
    (type_field (function_exit_word (sample_config_module 8 64) 0x12345) = 3 ∧
      type_field (global_event_word (sample_config_module 8 64) 5 0xABCD) = 5) ∧
    type_field (function_exit_word (sample_config_module 8 64) 0x12345) ≠
      (sample_config_module 8 64).NRF_802154_LOG_TYPE_FUNCTION_EXIT ∧
    type_field (global_event_word (sample_config_module 8 64) 5 0xABCD) ≠
      (sample_config_module 8 64).NRF_802154_LOG_TYPE_GLOBAL_EVENT :=
  ⟨by decide,
    ((module_id_bleeds_into_type (sample_config_module 8 64) 0x12345 5 0xABCD
      (by decide) (by decide) (by decide) (by decide) (by decide) (by decide)).2.1
        (by decide)).2.1 (by decide),
    ((module_id_bleeds_into_type (sample_config_module 8 64) 0x12345 5 0xABCD
      (by decide) (by decide) (by decide) (by decide) (by decide) (by decide)).2.1
        (by decide)).2.2.2 (by decide)⟩

/-- C17: for type constants at most 15, module id at most 63 and a function identifier
below `2 ^ 22`, the word built by `nrf_802154_log_function_enter` and by
`nrf_802154_log_function_exit` is the sum of the shifted type constant, the shifted module
id and the identifier, and decodes to the type constant, the module id and the
identifier. -/
theorem function_word_roundtrip (cfg : Config) (f : Nat)
    (hE : cfg.NRF_802154_LOG_TYPE_FUNCTION_ENTER ≤ 15)
    (hX : cfg.NRF_802154_LOG_TYPE_FUNCTION_EXIT ≤ 15)
    (hm : cfg.NRF_802154_MODULE_ID ≤ 63) (hf : f < 2 ^ 22) :
    (type_field (function_enter_word cfg f) = cfg.NRF_802154_LOG_TYPE_FUNCTION_ENTER ∧
      module_field (function_enter_word cfg f) = cfg.NRF_802154_MODULE_ID ∧
      function_field (function_enter_word cfg f) = f) ∧
    (type_field (function_exit_word cfg f) = cfg.NRF_802154_LOG_TYPE_FUNCTION_EXIT ∧
      module_field (function_exit_word cfg f) = cfg.NRF_802154_MODULE_ID ∧
      function_field (function_exit_word cfg f) = f) ∧
    function_enter_word cfg f =
      cfg.NRF_802154_LOG_TYPE_FUNCTION_ENTER * 2 ^ 28 + cfg.NRF_802154_MODULE_ID * 2 ^ 22 + f ∧
    function_exit_word cfg f =
      cfg.NRF_802154_LOG_TYPE_FUNCTION_EXIT * 2 ^ 28 + cfg.NRF_802154_MODULE_ID * 2 ^ 22 + f := by
  have hf32 : f < 2 ^ 32 := by omega
  have ht : type_field f = 0 := by rw [type_field_eq]; omega
  have hmf : module_field f = 0 := by rw [module_field_eq]; omega
  have hff : f % 2 ^ 22 = f := Nat.mod_eq_of_lt hf
  have he := function_word_fields cfg.NRF_802154_LOG_TYPE_FUNCTION_ENTER
    cfg.NRF_802154_MODULE_ID f hE hm hf32
  have hx := function_word_fields cfg.NRF_802154_LOG_TYPE_FUNCTION_EXIT
    cfg.NRF_802154_MODULE_ID f hX hm hf32
  simp only [ht, hmf, hff, Nat.or_zero] at he hx
  refine ⟨⟨he.2.1, he.2.2, he.1⟩, ⟨hx.2.1, hx.2.2, hx.1⟩, ?_, ?_⟩
  · exact pack_function _ _ f hE hm hf
  · exact pack_function _ _ f hX hm hf

/-- Instance of C17: function identifier `0x12345` in module 3 with type constants 1
and 2. -/
theorem function_word_roundtrip_witness :
    (type_field (function_enter_word (sample_config 8) 0x12345) = 1 ∧
      module_field (function_enter_word (sample_config 8) 0x12345) = 3 ∧
      function_field (function_enter_word (sample_config 8) 0x12345) = 0x12345) ∧
    (type_field (function_exit_word (sample_config 8) 0x12345) = 2 ∧
      module_field (function_exit_word (sample_config 8) 0x12345) = 3 ∧
      function_field (function_exit_word (sample_config 8) 0x12345) = 0x12345) ∧
    function_enter_word (sample_config 8) 0x12345 = 1 * 2 ^ 28 + 3 * 2 ^ 22 + 0x12345 ∧
    function_exit_word (sample_config 8) 0x12345 = 2 * 2 ^ 28 + 3 * 2 ^ 22 + 0x12345 :=
  function_word_roundtrip (sample_config 8) 0x12345
    (by decide) (by decide) (by decide) (by decide)

/-! ## Capacities that are not a power of two -/

theorem testBit_of_two_pow_le {x k : Nat} (h1 : 2 ^ k ≤ x) (h2 : x < 2 ^ (k + 1)) :
    x.testBit k = true := by
  rw [Nat.pow_succ] at h2
  have hx : x = 2 ^ k + (x - 2 ^ k) := by omega
  rw [hx, Nat.testBit_two_pow_add_eq, Nat.testBit_lt_two_pow (by omega)]
  rfl

/-- A capacity that is not a power of two shares its top bit with its predecessor. -/
theorem and_pred_ne_zero (n : Nat) (h1 : 1 ≤ n) (hnp : ¬ ∃ k, n = 2 ^ k) :
    n &&& (n - 1) ≠ 0 := by
  have hle : 2 ^ n.log2 ≤ n := Nat.log2_self_le (by omega)
  have hlt : n < 2 ^ (n.log2 + 1) := Nat.lt_log2_self
  have hne : n ≠ 2 ^ n.log2 := fun h => hnp ⟨_, h⟩
  intro h0
  have hb : (n &&& (n - 1)).testBit n.log2 = true := by
    rw [Nat.testBit_and, testBit_of_two_pow_le hle hlt,
      testBit_of_two_pow_le (by omega) (by omega)]
    rfl
  rw [h0, Nat.zero_testBit] at hb
  cases hb

/-- Below a capacity that is not a power of two there is a number with a bit outside the
mask `n - 1`. -/
theorem exists_non_submask (n : Nat) (h1 : 1 ≤ n) (hnp : ¬ ∃ k, n = 2 ^ k) :
    ∃ z, z ≤ n - 1 ∧ z &&& (n - 1) ≠ z := by
  have hle : 2 ^ n.log2 ≤ n := Nat.log2_self_le (by omega)
  have hlt : n < 2 ^ (n.log2 + 1) := Nat.lt_log2_self
  have hne : n ≠ 2 ^ n.log2 := fun h => hnp ⟨_, h⟩
  have hpos : 0 < 2 ^ n.log2 := Nat.pos_pow_of_pos _ (by decide)
  rw [Nat.pow_succ] at hlt
  refine ⟨2 ^ n.log2 - 1, by omega, ?_⟩
  intro h
  rw [Nat.and_comm, Nat.and_pow_two_sub_one_eq_mod] at h
  have hdm := Nat.div_add_mod (n - 1) (2 ^ n.log2)
  have hq1 : 0 < (n - 1) / 2 ^ n.log2 := Nat.div_pos (by omega) hpos
  have hq2 : (n - 1) / 2 ^ n.log2 < 2 := Nat.div_lt_of_lt_mul (by omega)
  have hq : (n - 1) / 2 ^ n.log2 = 1 := by omega
  rw [hq, h] at hdm
  omega

/-- For a capacity that is not a power of two the cursor, started at 0, stays below the
least number that has a bit outside the mask, hence below the last slot. -/
theorem exists_cursor_bound (cfg : Config)
    (h1 : 1 ≤ cfg.NRF_802154_DEBUG_LOG_BUFFER_LEN)
    (h32 : cfg.NRF_802154_DEBUG_LOG_BUFFER_LEN < 2 ^ 32)
    (hnp : ¬ ∃ k, cfg.NRF_802154_DEBUG_LOG_BUFFER_LEN = 2 ^ k) :
    ∃ b, 0 < b ∧ b ≤ cfg.NRF_802154_DEBUG_LOG_BUFFER_LEN - 1 ∧
      ∀ p, p < b → next_ptr cfg p < b := by
  have hex := exists_non_submask _ h1 hnp
  have hb := Nat.find_spec hex
  refine ⟨Nat.find hex, ?_, hb.1, ?_⟩
  · rcases Nat.eq_zero_or_pos (Nat.find hex) with h0 | h0
    · rw [h0] at hb
      exact absurd (Nat.zero_and _) hb.2
    · exact h0
  · intro p hp
    rw [next_ptr_eq_mask cfg p h32 (by omega)]
    rcases Nat.lt_or_ge (p + 1) (Nat.find hex) with hlt | hge
    · have hmin := Nat.find_min hex hlt
      have hsub : (p + 1) &&& (cfg.NRF_802154_DEBUG_LOG_BUFFER_LEN - 1) = p + 1 := by
        by_contra hcon
        exact hmin ⟨by omega, hcon⟩
      rw [hsub]
      exact hlt
    · have heq : p + 1 = Nat.find hex := by omega
      rw [heq]
      have hle : Nat.find hex &&& (cfg.NRF_802154_DEBUG_LOG_BUFFER_LEN - 1) ≤ Nat.find hex :=
        Nat.and_le_left
      have hne := hb.2
      omega

/-- A property of states kept by every append is kept by every run of appends. -/
theorem write_all_induction (cfg : Config) (P : LogState → Prop)
    (hstep : ∀ s w, P s → ∃ s', nrf_802154_debug_log_write_raw cfg s w = some s' ∧ P s')
    (ws : List Nat) :
    ∀ s, P s → ∃ s', write_all cfg s ws = some s' ∧ P s' := by
  induction ws with
  | nil => exact fun s hs => ⟨s, rfl, hs⟩
  | cons w ws ih =>
    intro s hs
    obtain ⟨s1, h1, hs1⟩ := hstep s w hs
    obtain ⟨s2, h2, hs2⟩ := ih s1 hs1
    exact ⟨s2, by simp [write_all, h1, h2], hs2⟩

/-- C16: for a capacity N with 1 ≤ N < 2^32, the cursor update `(p + 1) & (N - 1)` equals
`(p + 1) mod N` for every p < N if and only if N is a power of two. When N is not a power
of two the two differ at p = N - 1, where the update does not give 0, and in every run of
appends from the initial state the cursor never reaches the last slot, which is never
written and still holds 0. -/
theorem mask_advance_iff_power_of_two (cfg : Config)
    (h1 : 1 ≤ cfg.NRF_802154_DEBUG_LOG_BUFFER_LEN)
    (h32 : cfg.NRF_802154_DEBUG_LOG_BUFFER_LEN < 2 ^ 32) :
    (∀ p, p < cfg.NRF_802154_DEBUG_LOG_BUFFER_LEN →
      next_ptr cfg p = (p + 1) &&& (cfg.NRF_802154_DEBUG_LOG_BUFFER_LEN - 1)) ∧
    ((∀ p, p < cfg.NRF_802154_DEBUG_LOG_BUFFER_LEN →
        next_ptr cfg p = (p + 1) % cfg.NRF_802154_DEBUG_LOG_BUFFER_LEN) ↔
      ∃ k, cfg.NRF_802154_DEBUG_LOG_BUFFER_LEN = 2 ^ k) ∧
    ((¬ ∃ k, cfg.NRF_802154_DEBUG_LOG_BUFFER_LEN = 2 ^ k) →
      next_ptr cfg (cfg.NRF_802154_DEBUG_LOG_BUFFER_LEN - 1) ≠
        (cfg.NRF_802154_DEBUG_LOG_BUFFER_LEN - 1 + 1) % cfg.NRF_802154_DEBUG_LOG_BUFFER_LEN ∧
      next_ptr cfg (cfg.NRF_802154_DEBUG_LOG_BUFFER_LEN - 1) ≠ 0 ∧
      (∀ M, (next_ptr cfg)^[M] 0 ≠ cfg.NRF_802154_DEBUG_LOG_BUFFER_LEN - 1) ∧
      ∀ ws, ∃ s, write_all cfg (initial_state cfg) ws = some s ∧
        s.nrf_802154_debug_log_ptr ≠ cfg.NRF_802154_DEBUG_LOG_BUFFER_LEN - 1 ∧
        s.nrf_802154_debug_log_buffer[cfg.NRF_802154_DEBUG_LOG_BUFFER_LEN - 1]? = some 0) := by
  have hlast : next_ptr cfg (cfg.NRF_802154_DEBUG_LOG_BUFFER_LEN - 1) =
      cfg.NRF_802154_DEBUG_LOG_BUFFER_LEN &&& (cfg.NRF_802154_DEBUG_LOG_BUFFER_LEN - 1) := by
    rw [next_ptr_eq_mask cfg _ h32 (by omega), Nat.sub_add_cancel h1]
  have hwrap : (cfg.NRF_802154_DEBUG_LOG_BUFFER_LEN - 1 + 1) %
      cfg.NRF_802154_DEBUG_LOG_BUFFER_LEN = 0 := by
    rw [Nat.sub_add_cancel h1, Nat.mod_self]
  refine ⟨fun p hp => next_ptr_eq_mask cfg p h32 hp, ⟨?_, ?_⟩, ?_⟩
  · intro hall
    by_contra hnp
    have h := hall (cfg.NRF_802154_DEBUG_LOG_BUFFER_LEN - 1) (by omega)
    rw [hlast, hwrap] at h
    exact and_pred_ne_zero _ h1 hnp h
  · rintro ⟨k, hk⟩ p hp
    exact next_ptr_eq_mod cfg k p hk h32 hp
  · intro hnp
    have hne0 : next_ptr cfg (cfg.NRF_802154_DEBUG_LOG_BUFFER_LEN - 1) ≠ 0 := by
      rw [hlast]
      exact and_pred_ne_zero _ h1 hnp
    obtain ⟨b, hb0, hbN, hstep⟩ := exists_cursor_bound cfg h1 h32 hnp
    refine ⟨by rw [hwrap]; exact hne0, hne0, ?_, ?_⟩
    · intro M
      have hlt : (next_ptr cfg)^[M] 0 < b := by
        induction M with
        | zero => exact hb0
        | succ M ih =>
          rw [Function.iterate_succ_apply']
          exact hstep _ ih
      omega
    · intro ws
      have hrun := write_all_induction cfg
        (fun s => s.nrf_802154_debug_log_ptr < b ∧
          s.nrf_802154_debug_log_buffer[cfg.NRF_802154_DEBUG_LOG_BUFFER_LEN - 1]? = some 0)
        (by
          intro s w hs
          cases hen : debug_log_compiled_in cfg with
          | false => exact ⟨s, write_raw_disabled cfg s w hen, hs⟩
          | true =>
            refine ⟨_, write_raw_eq cfg s w hen (by omega), hstep _ hs.1, ?_⟩
            simp only
            rw [List.getElem?_set_ne (by omega)]
            exact hs.2)
        ws (initial_state cfg)
        ⟨hb0, by
          simp only [initial_state]
          rw [List.getElem?_replicate, if_pos (by omega)]⟩
      obtain ⟨s, hs, hp, hz⟩ := hrun
      exact ⟨s, hs, by omega, hz⟩

/-- Instance of C16 at capacity 6: the update sends the last slot 5 to `6 & 5 = 4`, and in
every run from the initial state the cursor never reaches slot 5, which keeps its 0. -/
theorem mask_advance_iff_power_of_two_witness :
    next_ptr (sample_config 6) 5 = 4 ∧
    (next_ptr (sample_config 6) (6 - 1) ≠ (6 - 1 + 1) % 6 ∧
      next_ptr (sample_config 6) (6 - 1) ≠ 0 ∧
      (∀ M, (next_ptr (sample_config 6))^[M] 0 ≠ 6 - 1) ∧
      ∀ ws, ∃ s, write_all (sample_config 6) (initial_state (sample_config 6)) ws = some s ∧
        s.nrf_802154_debug_log_ptr ≠ 6 - 1 ∧
        s.nrf_802154_debug_log_buffer[6 - 1]? = some 0) :=
  ⟨by decide,
    (mask_advance_iff_power_of_two (sample_config 6) (by decide) (by decide)).2.2 (by
      rintro ⟨k, hk⟩
      have hk6 : 2 ^ k = 6 := hk.symm
      rcases Nat.lt_or_ge k 3 with h | h
      · interval_cases k <;> simp at hk6
      · have h8 : 2 ^ 3 ≤ 2 ^ k := Nat.pow_le_pow_right (by decide) h
        omega)⟩

/-! ## Preempted appends -/

/-- An append that is not interrupted is the sequential append. -/
theorem run_unpreempted (cfg : Config) (s : LogState) (w : Nat) :
    run cfg (idle s) (Action.start w :: List.replicate 7 Action.step) =
      (nrf_802154_debug_log_write_raw cfg s w).map idle := by
  cases hen : debug_log_compiled_in cfg with
  | false =>
    simp [run, apply_action, idle, hen, write_raw_disabled cfg s w hen, List.replicate]
  | true =>
    by_cases hp : s.nrf_802154_debug_log_ptr < cfg.NRF_802154_DEBUG_LOG_BUFFER_LEN
    · rw [write_raw_eq cfg s w hen hp]
      cases hb : cfg.NRF_802154_DEBUG_LOG_BLOCKS_INTERRUPTS <;>
        simp [run, apply_action, exec_statement, idle, new_frame, take_pending, hen, hp, hb,
          List.replicate, nrf_802154_debug_log_disable_interrupts,
          nrf_802154_debug_log_restore_interrupts, nrf_802154_mcu_critical_enter,
          nrf_802154_mcu_critical_exit]
    · cases hb : cfg.NRF_802154_DEBUG_LOG_BLOCKS_INTERRUPTS <;>
        simp [run, apply_action, exec_statement, idle, new_frame, hen, hp, hb,
          List.replicate, nrf_802154_debug_log_disable_interrupts,
          nrf_802154_mcu_critical_enter, nrf_802154_debug_log_write_raw]

/-- Without masking, an append of `w2` nested between the read of the cursor and the store
of `w1` is overwritten by `w1`. -/
theorem nested_before_store (cfg : Config) (s : LogState) (w1 w2 : Nat)
    (hen : debug_log_compiled_in cfg = true)
    (hb : cfg.NRF_802154_DEBUG_LOG_BLOCKS_INTERRUPTS = false)
    (hp : s.nrf_802154_debug_log_ptr < cfg.NRF_802154_DEBUG_LOG_BUFFER_LEN) :
    run cfg (idle s) (nested_append w1 w2 3) =
      some (idle { nrf_802154_debug_log_buffer :=
                     s.nrf_802154_debug_log_buffer.set s.nrf_802154_debug_log_ptr (u32 w1)
                   nrf_802154_debug_log_ptr := next_ptr cfg s.nrf_802154_debug_log_ptr }) := by
  simp [nested_append, run, apply_action, exec_statement, idle, new_frame, take_pending, hen,
    hp, hb, List.replicate, nrf_802154_debug_log_disable_interrupts,
    nrf_802154_debug_log_restore_interrupts]

/-- Without masking, an append of `w2` nested between the store of `w1` and the store of the
advanced cursor overwrites `w1`. -/
theorem nested_after_store (cfg : Config) (s : LogState) (w1 w2 k : Nat)
    (hen : debug_log_compiled_in cfg = true)
    (hb : cfg.NRF_802154_DEBUG_LOG_BLOCKS_INTERRUPTS = false)
    (hp : s.nrf_802154_debug_log_ptr < cfg.NRF_802154_DEBUG_LOG_BUFFER_LEN)
    (hk : k = 4 ∨ k = 5) :
    run cfg (idle s) (nested_append w1 w2 k) =
      some (idle { nrf_802154_debug_log_buffer :=
                     s.nrf_802154_debug_log_buffer.set s.nrf_802154_debug_log_ptr (u32 w2)
                   nrf_802154_debug_log_ptr := next_ptr cfg s.nrf_802154_debug_log_ptr }) := by
  rcases hk with rfl | rfl <;>
    simp [nested_append, run, apply_action, exec_statement, idle, new_frame, take_pending, hen,
      hp, hb, List.replicate, nrf_802154_debug_log_disable_interrupts,
      nrf_802154_debug_log_restore_interrupts]

/-! ## Appends under the masking policy -/

theorem perm_push {d l req : List Nat} (w : Nat) (h : List.Perm (d ++ l) req) :
    List.Perm (d ++ (w :: l)) (req ++ [w]) := by
  rw [List.perm_iff_count] at h ⊢
  intro a
  have := h a
  simp only [List.count_append, List.count_cons, List.count_nil] at this ⊢
  omega

theorem perm_pend {d t req : List Nat} (w : Nat) (h : List.Perm (d ++ t) req) :
    List.Perm (d ++ (t ++ [w])) (req ++ [w]) := by
  rw [List.perm_iff_count] at h ⊢
  intro a
  have := h a
  simp only [List.count_append, List.count_cons, List.count_nil] at this ⊢
  omega

theorem perm_swap {d r p req : List Nat} (h : List.Perm (d ++ (r ++ p)) req) :
    List.Perm (d ++ (p ++ r)) req := by
  rw [List.perm_iff_count] at h ⊢
  intro a
  have := h a
  simp only [List.count_append, List.count_cons, List.count_nil] at this ⊢
  omega

theorem perm_commit {d t req : List Nat} (a : Nat) (h : List.Perm (d ++ (a :: t)) req) :
    List.Perm ((d ++ [a]) ++ t) req := by
  simpa using h

/-- A request that arrives while a context is inside its critical section joins the
waiting words. -/
theorem frame_inside_pend (cfg : Config) (L log : LogState) (fr : Frame)
    (done todo req : List Nat) (w : Nat)
    (h : frame_inside cfg L log fr done todo req) :
    frame_inside cfg L log fr done (todo ++ [w]) (req ++ [w]) := by
  have hcons : ∀ a, List.Perm (done ++ (a :: todo)) req →
      List.Perm (done ++ (a :: (todo ++ [w]))) (req ++ [w]) :=
    fun a hp => perm_pend (t := a :: todo) w hp
  rcases h with ⟨hpc, hl, hp⟩ | ⟨hpc, hl, hq, hp⟩ | ⟨hpc, hl, hq, hp⟩ | ⟨hpc, hl, hq, hp⟩ |
    ⟨hpc, hl, hp⟩
  · exact Or.inl ⟨hpc, hl, hcons _ hp⟩
  · exact Or.inr (Or.inl ⟨hpc, hl, hq, hcons _ hp⟩)
  · exact Or.inr (Or.inr (Or.inl ⟨hpc, hl, hq, hcons _ hp⟩))
  · exact Or.inr (Or.inr (Or.inr (Or.inl ⟨hpc, hl, hq, hcons _ hp⟩)))
  · exact Or.inr (Or.inr (Or.inr (Or.inr ⟨hpc, hl, perm_pend w hp⟩)))

/-- Under the masking policy a request keeps the invariant: it starts a context when
interrupts are enabled and stays pending otherwise. -/
theorem serialised_start (cfg : Config) (s0 : LogState) (m : Machine) (req : List Nat)
    (w : Nat) (hen : debug_log_compiled_in cfg = true)
    (h : serialised cfg s0 m req) :
    ∃ m', apply_action cfg m (Action.start w) = some m' ∧
      serialised cfg s0 m' (req ++ [w]) := by
  obtain ⟨done, L, hrun, hL, hcase⟩ := h
  rcases hcase with ⟨hlog, hirq, hpend, hout, hperm⟩ |
    ⟨fr, rest, hst, hout, hirq, hsv, hval, hin⟩
  · refine ⟨{ m with stack := new_frame w :: m.stack }, by simp [apply_action, hen, hirq],
      done, L, hrun, hL, Or.inl ⟨hlog, hirq, hpend, ?_, ?_⟩⟩
    · intro f hf
      rcases List.mem_cons.mp hf with rfl | hf
      · exact Or.inl rfl
      · exact hout f hf
    · exact perm_push w hperm
  · refine ⟨{ m with pending := m.pending ++ [w] }, by simp [apply_action, hen, hirq],
      done, L, hrun, hL, Or.inr ⟨fr, rest, hst, hout, hirq, hsv, hval, ?_⟩⟩
    have h := frame_inside_pend cfg L m.log fr done _ req w hin
    rw [List.append_assoc] at h
    exact h

theorem map_arg_new_frame (l : List Nat) : List.map Frame.arg (List.map new_frame l) = l := by
  induction l with
  | nil => rfl
  | cons a t ih =>
    simp only [List.map_cons, ih]
    rfl

/-- Under the masking policy a statement of the running context keeps the invariant and
is never an out-of-bounds store. -/
theorem serialised_step (cfg : Config) (s0 : LogState) (m : Machine) (req : List Nat)
    (hb : cfg.NRF_802154_DEBUG_LOG_BLOCKS_INTERRUPTS = true)
    (hen : debug_log_compiled_in cfg = true)
    (h : serialised cfg s0 m req) :
    ∃ m', apply_action cfg m Action.step = some m' ∧ serialised cfg s0 m' req := by
  obtain ⟨done, L, hrun, hL, hcase⟩ := h
  obtain ⟨log, irq, stack, pending⟩ := m
  rcases hcase with ⟨hlog, hirq, hpend, hout, hperm⟩ |
    ⟨fr, rest, hst, hout, hirq, hsv, hval, hin⟩
  · simp only at hlog hirq hpend hout hperm
    subst hlog hirq hpend
    cases stack with
    | nil =>
      exact ⟨_, rfl, done, _, hrun, hL, Or.inl ⟨rfl, rfl, rfl, hout, hperm⟩⟩
    | cons fr rest =>
      obtain ⟨arg, value, sv, ptr, pc⟩ := fr
      have hrest : ∀ f ∈ rest, frame_outside f := fun f hf => hout f (List.mem_cons_of_mem _ hf)
      rcases hout _ (List.mem_cons_self _ _) with hpc | ⟨hpc, hv⟩
      · simp only at hpc
        subst hpc
        refine ⟨_, rfl, done, _, hrun, hL, Or.inl ⟨rfl, rfl, rfl, ?_, hperm⟩⟩
        intro f hf
        rcases List.mem_cons.mp hf with rfl | hf
        · exact Or.inr ⟨rfl, rfl⟩
        · exact hrest f hf
      · simp only at hpc hv
        subst hpc hv
        refine ⟨_, rfl, done, _, hrun, hL, Or.inr ⟨_, rest, rfl, hrest, ?_, ?_, rfl, ?_⟩⟩
        · simp [nrf_802154_debug_log_disable_interrupts, hb, nrf_802154_mcu_critical_enter]
        · simp [nrf_802154_debug_log_disable_interrupts, hb, nrf_802154_mcu_critical_enter]
        · refine Or.inl ⟨rfl, rfl, ?_⟩
          simpa using hperm
  · simp only at hst hirq hin
    subst hst hirq
    obtain ⟨arg, value, sv, ptr, pc⟩ := fr
    simp only at hsv hval
    subst hsv hval
    rcases hin with ⟨hpc, hl, hp⟩ | ⟨hpc, hl, hq, hp⟩ | ⟨hpc, hl, hq, hp⟩ | ⟨hpc, hl, hq, hp⟩ |
      ⟨hpc, hl, hp⟩
    · simp only at hpc hl hp
      subst hpc hl
      exact ⟨_, rfl, done, _, hrun, hL,
        Or.inr ⟨_, rest, rfl, hout, rfl, rfl, rfl, Or.inr (Or.inl ⟨rfl, rfl, rfl, hp⟩)⟩⟩
    · simp only at hpc hl hq hp
      subst hpc hl hq
      refine ⟨_, by simp [apply_action, exec_statement, hL.1]; rfl, done, _, hrun, hL,
        Or.inr ⟨_, rest, rfl, hout, rfl, rfl, rfl,
          Or.inr (Or.inr (Or.inl ⟨rfl, rfl, rfl, hp⟩))⟩⟩
    · simp only at hpc hl hq hp
      subst hpc hl hq
      exact ⟨_, rfl, done, _, hrun, hL,
        Or.inr ⟨_, rest, rfl, hout, rfl, rfl, rfl,
          Or.inr (Or.inr (Or.inr (Or.inl ⟨rfl, rfl, rfl, hp⟩)))⟩⟩
    · simp only at hpc hl hq hp
      subst hpc hl hq
      obtain ⟨L', hw, hL'⟩ := write_raw_preserves_bounds cfg L arg (by have := hL.1; omega) hL
      have hw' := hw
      rw [write_raw_eq cfg L arg hen hL.1] at hw'
      refine ⟨_, rfl, done ++ [arg], L', ?_, hL',
        Or.inr ⟨_, rest, rfl, hout, rfl, rfl, rfl,
          Or.inr (Or.inr (Or.inr (Or.inr ⟨rfl, ?_, perm_commit arg hp⟩)))⟩⟩
      · rw [write_all_append, hrun, Option.some_bind, hw]
      · exact Option.some.inj hw'
    · simp only at hpc hl hp
      subst hpc hl
      have htp : apply_action cfg
          { log := log, interrupts_enabled := false,
            stack := { arg := arg, nrf_802154_debug_log_write_raw_value := u32 arg,
                       nrf_802154_debug_log_write_raw_sv := true,
                       nrf_802154_debug_log_write_raw_ptr := ptr, pc := 6 } :: rest,
            pending := pending } Action.step =
          some { log := log, interrupts_enabled := true,
                 stack := pending.map new_frame ++ rest, pending := [] } := by
        simp [apply_action, exec_statement, take_pending,
          nrf_802154_debug_log_restore_interrupts, hb, nrf_802154_mcu_critical_exit]
      refine ⟨_, htp, done, _, hrun, hL, Or.inl ⟨rfl, rfl, rfl, ?_, ?_⟩⟩
      · intro f hf
        rcases List.mem_append.mp hf with hf | hf
        · obtain ⟨w, _, rfl⟩ := List.mem_map.mp hf
          exact Or.inl rfl
        · exact hout f hf
      · simp only [List.map_append, map_arg_new_frame]
        exact perm_swap hp

/-- Under the masking policy every sequence of requests and statements keeps the invariant;
in particular it never stores out of bounds. -/
theorem serialised_run (cfg : Config) (s0 : LogState)
    (hb : cfg.NRF_802154_DEBUG_LOG_BLOCKS_INTERRUPTS = true)
    (hen : debug_log_compiled_in cfg = true) (sched : List Action) :
    ∀ m req, serialised cfg s0 m req →
      ∃ m', run cfg m sched = some m' ∧ serialised cfg s0 m' (req ++ started sched) := by
  induction sched with
  | nil =>
    intro m req h
    exact ⟨m, rfl, by simpa [started] using h⟩
  | cons a as ih =>
    intro m req h
    cases a with
    | start w =>
      obtain ⟨m1, h1, hs1⟩ := serialised_start cfg s0 m req w hen h
      obtain ⟨m2, h2, hs2⟩ := ih m1 _ hs1
      refine ⟨m2, by simp [run, h1, h2], ?_⟩
      simpa [started] using hs2
    | step =>
      obtain ⟨m1, h1, hs1⟩ := serialised_step cfg s0 m req hb hen h
      obtain ⟨m2, h2, hs2⟩ := ih m1 _ hs1
      refine ⟨m2, by simp [run, h1, h2], ?_⟩
      simpa [started] using hs2

theorem serialised_idle (cfg : Config) (s : LogState) (hs : cursor_in_bounds cfg s) :
    serialised cfg s (idle s) [] :=
  ⟨[], s, rfl, hs, Or.inl ⟨rfl, rfl, rfl, fun _ hf => absurd hf (List.not_mem_nil _),
    List.Perm.refl _⟩⟩

theorem frame_outside_pc {fr : Frame} (h : frame_outside fr) : fr.pc ≤ 1 := by
  rcases h with h | ⟨h, _⟩ <;> omega

/-! ## Claims on preemption -/

/-- C13: under the masking policy, from a state whose cursor is in bounds, every
interleaving of append requests and statements executes without an out-of-bounds store; in
the state it reaches every interrupted context is still before its read of the cursor, so
no context runs inside the read / store / advance sequence of another; and once all
contexts have finished, the log is the result of appending all requested words one after
the other in some order, so no write is lost. -/
theorem masked_appends_serialise (cfg : Config) (s : LogState) (sched : List Action)
    (hb : cfg.NRF_802154_DEBUG_LOG_BLOCKS_INTERRUPTS = true)
    (hen : debug_log_compiled_in cfg = true)
    (hs : cursor_in_bounds cfg s) :
    ∃ m, run cfg (idle s) sched = some m ∧
      (∀ fr ∈ m.stack.tail, fr.pc ≤ 1) ∧
      (m.stack = [] →
        m.pending = [] ∧ m.interrupts_enabled = true ∧
        ∃ order, List.Perm order (started sched) ∧ write_all cfg s order = some m.log ∧
          cursor_in_bounds cfg m.log) := by
  obtain ⟨m, hrun, done, L, hdone, hL, hcase⟩ :=
    serialised_run cfg s hb hen sched (idle s) [] (serialised_idle cfg s hs)
  refine ⟨m, hrun, ?_, ?_⟩
  · rcases hcase with ⟨_, _, _, hout, _⟩ | ⟨fr, rest, hst, hout, _⟩
    · intro fr hfr
      exact frame_outside_pc (hout fr (List.mem_of_mem_tail hfr))
    · intro f hf
      rw [hst] at hf
      exact frame_outside_pc (hout f hf)
  · intro hempty
    rcases hcase with ⟨hlog, hirq, hpend, _, hperm⟩ | ⟨fr, rest, hst, _⟩
    · refine ⟨hpend, hirq, done, ?_, ?_, ?_⟩
      · simpa [hempty] using hperm
      · rw [hlog]; exact hdone
      · rw [hlog]; exact hL
    · rw [hempty] at hst
      cases hst

/-- Instance of C13 at capacity 8: an append of `0x22` requested after the lower-priority
append of `0x11` has read the cursor stays pending until that append has finished, and both
words are in the buffer. -/
theorem masked_appends_serialise_witness :
    run (sample_config_masked 8) (idle (initial_state (sample_config_masked 8)))
        (nested_append 0x11 0x22 3) =
      some (idle { nrf_802154_debug_log_buffer := [0x11, 0x22, 0, 0, 0, 0, 0, 0]
                   nrf_802154_debug_log_ptr := 2 }) ∧
    ∃ m, run (sample_config_masked 8) (idle (initial_state (sample_config_masked 8)))
        (nested_append 0x11 0x22 3) = some m ∧
      (∀ fr ∈ m.stack.tail, fr.pc ≤ 1) ∧
      (m.stack = [] →
        m.pending = [] ∧ m.interrupts_enabled = true ∧
        ∃ order, List.Perm order (started (nested_append 0x11 0x22 3)) ∧
          write_all (sample_config_masked 8) (initial_state (sample_config_masked 8)) order =
            some m.log ∧
          cursor_in_bounds (sample_config_masked 8) m.log) :=
  ⟨by decide,
    masked_appends_serialise (sample_config_masked 8)
      (initial_state (sample_config_masked 8)) (nested_append 0x11 0x22 3)
      (by decide) (by decide) ⟨by decide, by decide⟩⟩

/-- C14, as stated, fails: without masking, when the append of `0x22` preempts the append of
`0x11` between the read of the cursor (step 2) and the store of the word (step 3), slot 0
holds the lower-priority word `0x11` afterwards, and the higher-priority word is the one
that is lost. -/
theorem lower_priority_write_kept_counterexample :
    run (sample_config 8) (idle (initial_state (sample_config 8)))
        (nested_append 0x11 0x22 3) =
      some (idle { nrf_802154_debug_log_buffer := [0x11, 0, 0, 0, 0, 0, 0, 0]
                   nrf_802154_debug_log_ptr := 1 }) ∧
    Option.map (fun m => m.log.nrf_802154_debug_log_buffer[0]?)
        (run (sample_config 8) (idle (initial_state (sample_config 8)))
          (nested_append 0x11 0x22 3)) = some (some 0x11) := by
  decide

/-- C14, amended: without masking, for distinct 32-bit words `w1` and `w2` and a cursor `p`
in bounds, a complete higher-priority append of `w2` that preempts the lower-priority append
of `w1` between step 2 and step 5 loses one of the two writes, the cursor advancing once.
After the store of `w1` (before step 4 or before step 5) the lower-priority write is lost:
slot `p` holds `w2` and not `w1`. Between the read of the cursor and the store of `w1`
(before step 3) the higher-priority write is lost: slot `p` holds `w1` and not `w2`. -/
theorem unmasked_preemption_loses_a_write (cfg : Config) (s : LogState) (w1 w2 : Nat)
    (hen : debug_log_compiled_in cfg = true)
    (hb : cfg.NRF_802154_DEBUG_LOG_BLOCKS_INTERRUPTS = false)
    (hlen : s.nrf_802154_debug_log_buffer.length = cfg.NRF_802154_DEBUG_LOG_BUFFER_LEN)
    (hp : s.nrf_802154_debug_log_ptr < cfg.NRF_802154_DEBUG_LOG_BUFFER_LEN)
    (hw1 : w1 < 2 ^ 32) (hw2 : w2 < 2 ^ 32) (hne : w1 ≠ w2) :
    (∀ k, k = 4 ∨ k = 5 →
      ∃ m, run cfg (idle s) (nested_append w1 w2 k) = some m ∧ m.stack = [] ∧
        m.log.nrf_802154_debug_log_buffer[s.nrf_802154_debug_log_ptr]? = some w2 ∧
        m.log.nrf_802154_debug_log_buffer[s.nrf_802154_debug_log_ptr]? ≠ some w1 ∧
        m.log.nrf_802154_debug_log_ptr = next_ptr cfg s.nrf_802154_debug_log_ptr) ∧
    (∃ m, run cfg (idle s) (nested_append w1 w2 3) = some m ∧ m.stack = [] ∧
      m.log.nrf_802154_debug_log_buffer[s.nrf_802154_debug_log_ptr]? = some w1 ∧
      m.log.nrf_802154_debug_log_buffer[s.nrf_802154_debug_log_ptr]? ≠ some w2 ∧
      m.log.nrf_802154_debug_log_ptr = next_ptr cfg s.nrf_802154_debug_log_ptr) := by
  have hslot : ∀ w, w < 2 ^ 32 →
      (s.nrf_802154_debug_log_buffer.set s.nrf_802154_debug_log_ptr
        (u32 w))[s.nrf_802154_debug_log_ptr]? = some w := by
    intro w hw
    rw [List.getElem?_set_self (by omega), u32_of_lt hw]
  refine ⟨?_, ?_⟩
  · intro k hk
    refine ⟨_, nested_after_store cfg s w1 w2 k hen hb hp hk, rfl, ?_, ?_, rfl⟩
    · exact hslot w2 hw2
    · simp only [idle]
      rw [hslot w2 hw2]
      exact fun h => hne (Option.some.inj h).symm
  · refine ⟨_, nested_before_store cfg s w1 w2 hen hb hp, rfl, ?_, ?_, rfl⟩
    · exact hslot w1 hw1
    · simp only [idle]
      rw [hslot w1 hw1]
      exact fun h => hne (Option.some.inj h)

/-- Instance of amended C14 at capacity 8 with the buffer `0x10 .. 0x17`, cursor 2 and the
words `0x11`, `0x22`. -/
theorem unmasked_preemption_loses_a_write_witness :
    (∀ k, k = 4 ∨ k = 5 →
      ∃ m, run (sample_config 8) (idle (sample_state 2)) (nested_append 0x11 0x22 k) = some m ∧
        m.stack = [] ∧
        m.log.nrf_802154_debug_log_buffer[2]? = some 0x22 ∧
        m.log.nrf_802154_debug_log_buffer[2]? ≠ some 0x11 ∧
        m.log.nrf_802154_debug_log_ptr = next_ptr (sample_config 8) 2) ∧
    (∃ m, run (sample_config 8) (idle (sample_state 2)) (nested_append 0x11 0x22 3) = some m ∧
      m.stack = [] ∧
      m.log.nrf_802154_debug_log_buffer[2]? = some 0x11 ∧
      m.log.nrf_802154_debug_log_buffer[2]? ≠ some 0x22 ∧
      m.log.nrf_802154_debug_log_ptr = next_ptr (sample_config 8) 2) :=
  unmasked_preemption_loses_a_write (sample_config 8) (sample_state 2) 0x11 0x22
    (by decide) (by decide) (by decide) (by decide) (by decide) (by decide) (by decide)

/-- C18: without masking, when a complete higher-priority append of `w2` is nested in a
lower-priority append of `w1` that read cursor `p`, after the read of `p` and before the
store of the advanced cursor, the cursor ends at `(p + 1) & (N - 1)`, advanced once, where
the two appends one after the other advance it twice; slot `p` holds `w1` if the preemption
came before the store of `w1` and `w2` if after; all slots other than `p` are unchanged;
and, the two words being distinct, the other word is put in no slot: slot `p` does not hold
it, a slot that holds it afterwards is a slot other than `p` that held it before the two
appends, and it is in no slot at all when it was in none before. -/
theorem nested_append_effect (cfg : Config) (s : LogState) (w1 w2 k : Nat)
    (hen : debug_log_compiled_in cfg = true)
    (hb : cfg.NRF_802154_DEBUG_LOG_BLOCKS_INTERRUPTS = false)
    (h32 : cfg.NRF_802154_DEBUG_LOG_BUFFER_LEN < 2 ^ 32)
    (hlen : s.nrf_802154_debug_log_buffer.length = cfg.NRF_802154_DEBUG_LOG_BUFFER_LEN)
    (hp : s.nrf_802154_debug_log_ptr < cfg.NRF_802154_DEBUG_LOG_BUFFER_LEN)
    (hw1 : w1 < 2 ^ 32) (hw2 : w2 < 2 ^ 32)
    (hk : k = 3 ∨ k = 4 ∨ k = 5) :
    ∃ m, run cfg (idle s) (nested_append w1 w2 k) = some m ∧ m.stack = [] ∧
      m.log.nrf_802154_debug_log_ptr =
        (s.nrf_802154_debug_log_ptr + 1) &&& (cfg.NRF_802154_DEBUG_LOG_BUFFER_LEN - 1) ∧
      (∃ s2, write_all cfg s [w1, w2] = some s2 ∧
        s2.nrf_802154_debug_log_ptr =
          next_ptr cfg (next_ptr cfg s.nrf_802154_debug_log_ptr)) ∧
      m.log.nrf_802154_debug_log_buffer[s.nrf_802154_debug_log_ptr]? =
        some (if k = 3 then w1 else w2) ∧
      (∀ i, i ≠ s.nrf_802154_debug_log_ptr →
        m.log.nrf_802154_debug_log_buffer[i]? = s.nrf_802154_debug_log_buffer[i]?) ∧
      (w1 ≠ w2 →
        m.log.nrf_802154_debug_log_buffer[s.nrf_802154_debug_log_ptr]? ≠
          some (if k = 3 then w2 else w1)) ∧
      (w1 ≠ w2 → ∀ i,
        m.log.nrf_802154_debug_log_buffer[i]? = some (if k = 3 then w2 else w1) →
        i ≠ s.nrf_802154_debug_log_ptr ∧
          s.nrf_802154_debug_log_buffer[i]? = some (if k = 3 then w2 else w1)) ∧
      (w1 ≠ w2 → (if k = 3 then w2 else w1) ∉ s.nrf_802154_debug_log_buffer →
        (if k = 3 then w2 else w1) ∉ m.log.nrf_802154_debug_log_buffer) := by
  have hpos : 0 < cfg.NRF_802154_DEBUG_LOG_BUFFER_LEN := by omega
  have hseq : ∃ s2, write_all cfg s [w1, w2] = some s2 ∧
      s2.nrf_802154_debug_log_ptr =
        next_ptr cfg (next_ptr cfg s.nrf_802154_debug_log_ptr) := by
    refine ⟨{ nrf_802154_debug_log_buffer :=
                (s.nrf_802154_debug_log_buffer.set s.nrf_802154_debug_log_ptr (u32 w1)).set
                  (next_ptr cfg s.nrf_802154_debug_log_ptr) (u32 w2)
              nrf_802154_debug_log_ptr :=
                next_ptr cfg (next_ptr cfg s.nrf_802154_debug_log_ptr) }, ?_, rfl⟩
    simp only [write_all]
    rw [write_raw_eq cfg s w1 hen hp]
    simp only
    rw [write_raw_eq cfg _ w2 hen (next_ptr_lt cfg _ hpos)]
  -- the state left by a nested append that ends with the word `a` in slot `p`
  have key : ∀ a b, a < 2 ^ 32 →
      run cfg (idle s) (nested_append w1 w2 k) =
        some (idle { nrf_802154_debug_log_buffer :=
                       s.nrf_802154_debug_log_buffer.set s.nrf_802154_debug_log_ptr (u32 a)
                     nrf_802154_debug_log_ptr := next_ptr cfg s.nrf_802154_debug_log_ptr }) →
      (if k = 3 then w1 else w2) = a → (if k = 3 then w2 else w1) = b →
      (a = w1 ∧ b = w2 ∨ a = w2 ∧ b = w1) →
      ∃ m, run cfg (idle s) (nested_append w1 w2 k) = some m ∧ m.stack = [] ∧
        m.log.nrf_802154_debug_log_ptr =
          (s.nrf_802154_debug_log_ptr + 1) &&& (cfg.NRF_802154_DEBUG_LOG_BUFFER_LEN - 1) ∧
        (∃ s2, write_all cfg s [w1, w2] = some s2 ∧
          s2.nrf_802154_debug_log_ptr =
            next_ptr cfg (next_ptr cfg s.nrf_802154_debug_log_ptr)) ∧
        m.log.nrf_802154_debug_log_buffer[s.nrf_802154_debug_log_ptr]? =
          some (if k = 3 then w1 else w2) ∧
        (∀ i, i ≠ s.nrf_802154_debug_log_ptr →
          m.log.nrf_802154_debug_log_buffer[i]? = s.nrf_802154_debug_log_buffer[i]?) ∧
        (w1 ≠ w2 →
          m.log.nrf_802154_debug_log_buffer[s.nrf_802154_debug_log_ptr]? ≠
            some (if k = 3 then w2 else w1)) ∧
        (w1 ≠ w2 → ∀ i,
          m.log.nrf_802154_debug_log_buffer[i]? = some (if k = 3 then w2 else w1) →
          i ≠ s.nrf_802154_debug_log_ptr ∧
            s.nrf_802154_debug_log_buffer[i]? = some (if k = 3 then w2 else w1)) ∧
        (w1 ≠ w2 → (if k = 3 then w2 else w1) ∉ s.nrf_802154_debug_log_buffer →
          (if k = 3 then w2 else w1) ∉ m.log.nrf_802154_debug_log_buffer) := by
    intro a b ha hrun hia hib hab
    have hslot : (s.nrf_802154_debug_log_buffer.set s.nrf_802154_debug_log_ptr
        (u32 a))[s.nrf_802154_debug_log_ptr]? = some a := by
      rw [List.getElem?_set_self (by omega), u32_of_lt ha]
    have hab' : w1 ≠ w2 → a ≠ b := by
      rcases hab with ⟨h1, h2⟩ | ⟨h1, h2⟩
      · rw [h1, h2]; exact id
      · rw [h1, h2]; exact fun h h' => h h'.symm
    rw [hia, hib]
    refine ⟨_, hrun, rfl, next_ptr_eq_mask cfg _ h32 hp, hseq, hslot, ?_, ?_, ?_, ?_⟩
    · intro i hi
      exact List.getElem?_set_ne (Ne.symm hi)
    · intro hne
      simp only [idle]
      rw [hslot]
      exact fun h => hab' hne (Option.some.inj h)
    · intro hne i hi
      simp only [idle] at hi
      have hip : i ≠ s.nrf_802154_debug_log_ptr := by
        intro heq
        rw [heq, hslot] at hi
        exact hab' hne (Option.some.inj hi)
      rw [List.getElem?_set_ne (Ne.symm hip)] at hi
      exact ⟨hip, hi⟩
    · intro hne hnot hmem
      simp only [idle] at hmem
      rcases List.mem_or_eq_of_mem_set hmem with h | h
      · exact hnot h
      · rw [u32_of_lt ha] at h
        exact hab' hne h.symm
  rcases hk with rfl | rfl | rfl
  · exact key w1 w2 hw1 (nested_before_store cfg s w1 w2 hen hb hp) rfl rfl
      (Or.inl ⟨rfl, rfl⟩)
  · exact key w2 w1 hw2 (nested_after_store cfg s w1 w2 4 hen hb hp (Or.inl rfl)) rfl rfl
      (Or.inr ⟨rfl, rfl⟩)
  · exact key w2 w1 hw2 (nested_after_store cfg s w1 w2 5 hen hb hp (Or.inr rfl)) rfl rfl
      (Or.inr ⟨rfl, rfl⟩)

/-- Instance of C18 at capacity 8 with the buffer `0x10 .. 0x17`, cursor 2, the words
`0xA1` and `0xB2`, and the preemption after the store of `0xA1`: slot 2 holds `0xB2`, the
cursor is 3, and `0xA1` is in no slot. -/
theorem nested_append_effect_witness :
    run (sample_config 8) (idle (sample_state 2)) (nested_append 0xA1 0xB2 4) =
      some (idle { nrf_802154_debug_log_buffer :=
                     [0x10, 0x11, 0xB2, 0x13, 0x14, 0x15, 0x16, 0x17]
                   nrf_802154_debug_log_ptr := 3 }) ∧
    ∃ m, run (sample_config 8) (idle (sample_state 2)) (nested_append 0xA1 0xB2 4) = some m ∧
      m.stack = [] ∧
      m.log.nrf_802154_debug_log_ptr = (2 + 1) &&& (8 - 1) ∧
      (∃ s2, write_all (sample_config 8) (sample_state 2) [0xA1, 0xB2] = some s2 ∧
        s2.nrf_802154_debug_log_ptr =
          next_ptr (sample_config 8) (next_ptr (sample_config 8) 2)) ∧
      m.log.nrf_802154_debug_log_buffer[2]? = some (if 4 = 3 then 0xA1 else 0xB2) ∧
      (∀ i, i ≠ 2 →
        m.log.nrf_802154_debug_log_buffer[i]? =
          [0x10, 0x11, 0x12, 0x13, 0x14, 0x15, 0x16, 0x17][i]?) ∧
      (0xA1 ≠ 0xB2 →
        m.log.nrf_802154_debug_log_buffer[2]? ≠ some (if 4 = 3 then 0xB2 else 0xA1)) ∧
      (0xA1 ≠ 0xB2 → ∀ i,
        m.log.nrf_802154_debug_log_buffer[i]? = some (if 4 = 3 then 0xB2 else 0xA1) →
        i ≠ 2 ∧
          [0x10, 0x11, 0x12, 0x13, 0x14, 0x15, 0x16, 0x17][i]? =
            some (if 4 = 3 then 0xB2 else 0xA1)) ∧
      (0xA1 ≠ 0xB2 →
        (if 4 = 3 then 0xB2 else 0xA1) ∉ [0x10, 0x11, 0x12, 0x13, 0x14, 0x15, 0x16, 0x17] →
        (if 4 = 3 then 0xB2 else 0xA1) ∉ m.log.nrf_802154_debug_log_buffer) :=
  ⟨by decide,
    nested_append_effect (sample_config 8) (sample_state 2) 0xA1 0xB2 4
      (by decide) (by decide) (by decide) (by decide) (by decide) (by decide) (by decide)
      (by decide)⟩

end DebugLog
